import Mathlib

/-!
# gmock: stub registry and request matching

A shallow embedding of `errors.go`, `http.go`, `stub.go`, `util.go`, `server.go` and
`handler.go`, followed by the properties of the registry and of the handlers.

Conventions of the embedding.

* Go strings and byte slices are Lean strings (valid UTF-8 text); bytes are taken with `utf8`.
* A Go slice that the program may see as nil is a `Slice`: `none` is the nil slice.
* A value of type `any` is a `Value`; `Value.null` is the nil interface.
* A Go map is an association list with one entry per key; the order of the list is not
  observable: the program reads maps by key, or through the key-sorted listing of `fmt` and
  `encoding/json`.
* The registry stores `*Stub`; a stored stub is represented by its content at the time of the
  store, and `addStub` also returns the content it leaves in the stub it was handed. Callers
  are taken not to write to a stub once the registry holds it.
* A nil pointer dereference ends a call with `Run.panicked`.
* Logging has no effect on the state and is left out.
-/

namespace Gmock

/-! ## Go runtime values -/

/-- A Go slice: `none` is the nil slice, `some xs` a non-nil slice holding `xs`. -/
abbrev Slice (α : Type) := Option (List α)

/-- The elements of a slice. -/
def Slice.toList {α : Type} : Slice α → List α
  | none => []
  | some xs => xs

/-- The builtin `len`. -/
def Slice.len {α : Type} (s : Slice α) : Nat := s.toList.length

/-- The builtin `append(s, xs...)`: with nothing to add the slice itself comes back, so the nil
slice stays nil. -/
def goAppend {α : Type} (s : Slice α) (xs : List α) : Slice α :=
  match xs with
  | [] => s
  | _ :: _ => some (s.toList ++ xs)

/-- How a call ends: it returns a value, or the goroutine panics. -/
inductive Run (α : Type) where
  | ret (a : α)
  | panicked
  deriving DecidableEq

/-- A value held in a variable of type `any`: what the YAML decoder produces, and what a caller
of the library can build. `unsupported` stands for a value `encoding/json` refuses (NaN, a
channel, a map whose keys are not strings), carried with the text `%v` prints for it. -/
inductive Value where
  | null
  | bool (b : Bool)
  | int (n : Int)
  | str (s : String)
  | arr (xs : List Value)
  | obj (kvs : List (String × Value))
  | unsupported (shown : String)

/-- The UTF-8 bytes of one character. -/
def utf8Char (c : Char) : List Nat :=
  let n := c.toNat
  if n < 128 then [n]
  else if n < 2048 then [192 + n / 64, 128 + n % 64]
  else if n < 65536 then [224 + n / 4096, 128 + n / 64 % 64, 128 + n % 64]
  else [240 + n / 262144, 128 + n / 4096 % 64, 128 + n / 64 % 64, 128 + n % 64]

/-- The bytes of a Go string. -/
def utf8 (s : String) : List Nat := s.data.flatMap utf8Char

/-- Lexicographic order on byte sequences: the order of Go strings under `<`. -/
def lessBytes : List Nat → List Nat → Bool
  | [], [] => false
  | [], _ :: _ => true
  | _ :: _, [] => false
  | a :: as, b :: bs => decide (a < b) || (decide (a = b) && lessBytes as bs)

/-- Go string comparison `a < b`. -/
def stringLess (a b : String) : Bool := lessBytes (utf8 a) (utf8 b)

/-- Insert an entry into a key-sorted listing. -/
def insertByKey {β : Type} (e : String × β) : List (String × β) → List (String × β)
  | [] => [e]
  | x :: xs => if stringLess x.1 e.1 then x :: insertByKey e xs else e :: x :: xs

/-- The entries of a Go map with string keys, in ascending key order, as `fmt` and
`encoding/json` visit them. -/
def sortByKey {β : Type} (m : List (String × β)) : List (String × β) :=
  m.foldr insertByKey []

/-! ## errors.go -/

/-- The error values of the package, and the errors handed back by the libraries it calls. -/
inductive Error where
  | errRequiredMethod
  | errInvalidMethod (method : String)
  | errRequiredPath
  | errInvalidStatusCode (statusCode : Int)
  | jsonUnsupported (shown : String)
  | jsonInvalid (context : String)
  | readFailed (msg : String)
  | decodeFailed (msg : String)
  deriving DecidableEq

/-- The `Error()` methods of errors.go (library errors keep their own text). -/
def Error.Error : Error → String
  | .errRequiredMethod => "method is required"
  | .errInvalidMethod method => "method " ++ method ++ " is not valid"
  | .errRequiredPath => "path is required"
  | .errInvalidStatusCode statusCode => "status code " ++ toString statusCode ++ " is not valid"
  | .jsonUnsupported shown => "json: unsupported value: " ++ shown
  | .jsonInvalid context => context
  | .readFailed msg => msg
  | .decodeFailed msg => msg

/-! ## http.go -/

/-- The map of valid HTTP methods (net/http/method.go). -/
def httpMethods : List (String × String) :=
  [("GET", "GET"), ("HEAD", "HEAD"), ("POST", "POST"), ("PUT", "PUT"), ("PATCH", "PATCH"),
   ("DELETE", "DELETE"), ("CONNECT", "CONNECT"), ("OPTIONS", "OPTIONS"), ("TRACE", "TRACE")]

/-! ## stub.go: the data model -/

/-- The type `url.Values` (also the shape of `http.Header`): parameter name to its values. -/
abbrev Values := List (String × List String)

/-- The key under which a stub is stored. -/
abbrev hash := String

/-- The request part of a Stub. -/
structure StubRequest where
  Method : String
  Path : String
  Query : Values
  Body : Value

/-- The response part of a Stub. -/
structure StubResponse where
  StatusCode : Int
  Headers : Values
  Body : Value

/-- A request and response pair that is used to match incoming requests. -/
structure Stub where
  Request : StubRequest
  Response : StubResponse

/-- The validation errors of a stub request: `httpMethods[r.Method]` is the map lookup. -/
def StubRequest.Validate (r : StubRequest) : Slice Error :=
  let errs : Slice Error := none
  let errs :=
    if r.Method = "" then goAppend errs [Error.errRequiredMethod]
    else if (httpMethods.lookup r.Method).isNone then
      goAppend errs [Error.errInvalidMethod r.Method]
    else errs
  let errs := if r.Path = "" then goAppend errs [Error.errRequiredPath] else errs
  errs

/-- Sanitize a stub request: a non-empty path gets a leading slash. -/
def StubRequest.Sanitize (r : StubRequest) : StubRequest :=
  if r.Path ≠ "" ∧ r.Path.data.head? ≠ some '/' then { r with Path := "/" ++ r.Path } else r

/-- The validation errors of a stub response. -/
def StubResponse.Validate (r : StubResponse) : Slice Error :=
  let errs : Slice Error := none
  let errs :=
    if r.StatusCode < 200 ∨ r.StatusCode > 599 then
      goAppend errs [Error.errInvalidStatusCode r.StatusCode]
    else errs
  errs

/-- The validation errors of a stub: those of the request, then those of the response. -/
def Stub.validationErrors (r : Stub) : Slice Error :=
  goAppend r.Request.Validate r.Response.Validate.toList

/-! ## fmt: the `%v` text of the values that get hashed -/

mutual
/-- The text `%v` prints for a value held in an `any`. -/
def fmtValue : Value → String
  | .null => "<nil>"
  | .bool b => if b then "true" else "false"
  | .int n => toString n
  | .str s => s
  | .arr xs => "[" ++ " ".intercalate (fmtElems xs) ++ "]"
  | .obj kvs => "map[" ++ " ".intercalate ((sortByKey (fmtFields kvs)).map
      (fun kv => kv.1 ++ ":" ++ kv.2)) ++ "]"
  | .unsupported shown => shown
/-- The texts of the elements of a slice. -/
def fmtElems : List Value → List String
  | [] => []
  | v :: vs => fmtValue v :: fmtElems vs
/-- The keys of a map paired with the texts of their values. -/
def fmtFields : List (String × Value) → List (String × String)
  | [] => []
  | (k, v) :: kvs => (k, fmtValue v) :: fmtFields kvs
end

/-- The text `%v` prints for a `[]string`. -/
def fmtStrings (vs : List String) : String := "[" ++ " ".intercalate vs ++ "]"

/-- The text `%v` prints for a `url.Values`: keys ascending, `key:[v1 v2]`. -/
def fmtValues (q : Values) : String :=
  "map[" ++ " ".intercalate ((sortByKey q).map (fun kv => kv.1 ++ ":" ++ fmtStrings kv.2)) ++ "]"

/-- The text `%v` prints for a StubRequest value: the four fields between braces. The
`String` method has a pointer receiver, so it is not used for a value. -/
def StubRequest.fmtV (r : StubRequest) : String :=
  "\x7b" ++ r.Method ++ " " ++ r.Path ++ " " ++ fmtValues r.Query ++ " " ++ fmtValue r.Body
    ++ "\x7d"

/-! ## crypto/sha256 -/

/-- Addition of 32-bit words. -/
def add32 (a b : Nat) : Nat := (a + b) % 4294967296

/-- Rotation of a 32-bit word to the right by `n` bits, `0 < n < 32`. -/
def rotr32 (x n : Nat) : Nat := (x >>> n) ||| ((x <<< (32 - n)) % 4294967296)

/-- The round constants of SHA-256. -/
def sha256K : List Nat := [
  0x428a2f98, 0x71374491, 0xb5c0fbcf, 0xe9b5dba5, 0x3956c25b, 0x59f111f1, 0x923f82a4, 0xab1c5ed5,
  0xd807aa98, 0x12835b01, 0x243185be, 0x550c7dc3, 0x72be5d74, 0x80deb1fe, 0x9bdc06a7, 0xc19bf174,
  0xe49b69c1, 0xefbe4786, 0x0fc19dc6, 0x240ca1cc, 0x2de92c6f, 0x4a7484aa, 0x5cb0a9dc, 0x76f988da,
  0x983e5152, 0xa831c66d, 0xb00327c8, 0xbf597fc7, 0xc6e00bf3, 0xd5a79147, 0x06ca6351, 0x14292967,
  0x27b70a85, 0x2e1b2138, 0x4d2c6dfc, 0x53380d13, 0x650a7354, 0x766a0abb, 0x81c2c92e, 0x92722c85,
  0xa2bfe8a1, 0xa81a664b, 0xc24b8b70, 0xc76c51a3, 0xd192e819, 0xd6990624, 0xf40e3585, 0x106aa070,
  0x19a4c116, 0x1e376c08, 0x2748774c, 0x34b0bcb5, 0x391c0cb3, 0x4ed8aa4a, 0x5b9cca4f, 0x682e6ff3,
  0x748f82ee, 0x78a5636f, 0x84c87814, 0x8cc70208, 0x90befffa, 0xa4506ceb, 0xbef9a3f7, 0xc67178f2]

/-- The padding after a message of `len` bytes: 0x80, zero bytes up to 56 modulo 64, and the
length in bits as eight big-endian bytes. -/
def sha256Pad (len : Nat) : List Nat :=
  [128] ++ List.replicate ((119 - len % 64) % 64) 0
    ++ (List.range 8).map (fun i => (len * 8) >>> (8 * (7 - i)) % 256)

/-- The big-endian 32-bit words of a byte sequence. -/
def wordsOf : List Nat → List Nat
  | a :: b :: c :: d :: rest => (((a * 256 + b) * 256 + c) * 256 + d) :: wordsOf rest
  | _ => []

/-- The blocks of sixteen words; `fuel` bounds their number. -/
def blocksOf : Nat → List Nat → List (List Nat)
  | 0, _ => []
  | fuel + 1, ws => if ws.isEmpty then [] else ws.take 16 :: blocksOf fuel (ws.drop 16)

/-- The message schedule of a block: its sixteen words extended to sixty-four. -/
def schedule (block : List Nat) : List Nat :=
  ((List.range 48).foldl (fun (w : List Nat) _ =>
      let w2 := w.getD 1 0
      let w7 := w.getD 6 0
      let w15 := w.getD 14 0
      let w16 := w.getD 15 0
      let s0 := (rotr32 w15 7) ^^^ (rotr32 w15 18) ^^^ (w15 >>> 3)
      let s1 := (rotr32 w2 17) ^^^ (rotr32 w2 19) ^^^ (w2 >>> 10)
      add32 (add32 (add32 w16 s0) w7) s1 :: w) block.reverse).reverse

/-- The eight working words of SHA-256. -/
structure ShaState where
  a : Nat
  b : Nat
  c : Nat
  d : Nat
  e : Nat
  f : Nat
  g : Nat
  h : Nat

/-- One round of the compression function, on a round constant and a schedule word. -/
def shaRound (s : ShaState) (kw : Nat × Nat) : ShaState :=
  let s1 := (rotr32 s.e 6) ^^^ (rotr32 s.e 11) ^^^ (rotr32 s.e 25)
  let ch := (s.e &&& s.f) ^^^ ((4294967295 - s.e) &&& s.g)
  let t1 := add32 (add32 (add32 (add32 s.h s1) ch) kw.1) kw.2
  let s0 := (rotr32 s.a 2) ^^^ (rotr32 s.a 13) ^^^ (rotr32 s.a 22)
  let maj := (s.a &&& s.b) ^^^ (s.a &&& s.c) ^^^ (s.b &&& s.c)
  let t2 := add32 s0 maj
  ⟨add32 t1 t2, s.a, s.b, s.c, add32 s.d t1, s.e, s.f, s.g⟩

/-- The compression function: sixty-four rounds, then the feed-forward. -/
def compress (hs : ShaState) (block : List Nat) : ShaState :=
  let r := (sha256K.zip (schedule block)).foldl shaRound hs
  ⟨add32 hs.a r.a, add32 hs.b r.b, add32 hs.c r.c, add32 hs.d r.d,
   add32 hs.e r.e, add32 hs.f r.f, add32 hs.g r.g, add32 hs.h r.h⟩

/-- A hexadecimal digit, lower case. -/
def hexDigit (n : Nat) : Char := "0123456789abcdef".data.getD n '0'

/-- The eight hexadecimal digits of a 32-bit word. -/
def hex32 (w : Nat) : List Char :=
  (List.range 8).map (fun i => hexDigit ((w >>> (4 * (7 - i))) % 16))

/-- The SHA-256 digest of a byte sequence, printed with `%x`. -/
def sha256Hex (msg : List Nat) : String :=
  let padded := msg ++ sha256Pad msg.length
  let blocks := blocksOf padded.length (wordsOf padded)
  let r := blocks.foldl compress
    ⟨0x6a09e667, 0xbb67ae85, 0x3c6ef372, 0xa54ff53a, 0x510e527f, 0x9b05688c, 0x1f83d9ab, 0x5be0cd19⟩
  String.mk ([r.a, r.b, r.c, r.d, r.e, r.f, r.g, r.h].flatMap hex32)

/-! ## util.go -/

/-- The sha256 hash of the argument; the argument enters through the text `%v` prints for it. -/
def asSha256 (text : String) : String := sha256Hex (utf8 text)

/-- The hash that identifies a stub request. -/
def getHash (r : StubRequest) : hash := asSha256 r.fmtV

/-! ## encoding/json: Marshal -/

/-- Four hexadecimal digits. -/
def hex4 (n : Nat) : List Char :=
  [hexDigit (n / 4096 % 16), hexDigit (n / 256 % 16), hexDigit (n / 16 % 16), hexDigit (n % 16)]

/-- The encoding of one character inside a JSON string, as `json.Marshal` writes it (HTML
escaping on): the quote and the backslash get a backslash, newline, carriage return and tab
their short form, the other control characters, the characters `<`, `>`, `&` and U+2028,
U+2029 the form `\u00XX`. (Go releases from 1.22 on shorten backspace and form feed.) -/
def jsonEscapeChar (c : Char) : List Char :=
  let n := c.toNat
  if n = 34 ∨ n = 92 then [Char.ofNat 92, c]
  else if n = 10 then [Char.ofNat 92, 'n']
  else if n = 13 then [Char.ofNat 92, 'r']
  else if n = 9 then [Char.ofNat 92, 't']
  else if n < 32 ∨ n = 60 ∨ n = 62 ∨ n = 38 ∨ n = 8232 ∨ n = 8233 then
    Char.ofNat 92 :: 'u' :: hex4 n
  else [c]

/-- A Go string as a JSON string literal. -/
def jsonQuote (s : String) : String :=
  String.mk (Char.ofNat 34 :: (s.data.flatMap jsonEscapeChar ++ [Char.ofNat 34]))

/-- The first error of a sequence of results, or all their values. -/
def collect {α : Type} : List (Except Error α) → Except Error (List α)
  | [] => .ok []
  | .error e :: _ => .error e
  | .ok a :: rest =>
    match collect rest with
    | .ok as => .ok (a :: as)
    | .error e => .error e

mutual
/-- The function `json.Marshal` on a value held in an `any`: compact JSON, object keys
ascending, or the error for the first value it cannot encode. -/
def jsonMarshal : Value → Except Error String
  | .null => .ok "null"
  | .bool b => .ok (if b then "true" else "false")
  | .int n => .ok (toString n)
  | .str s => .ok (jsonQuote s)
  | .arr xs =>
    match collect (jsonMarshalElems xs) with
    | .ok ts => .ok ("[" ++ ",".intercalate ts ++ "]")
    | .error e => .error e
  | .obj kvs =>
    match collect ((sortByKey (jsonMarshalFields kvs)).map
        (fun kv => match kv.2 with
          | .ok t => .ok (jsonQuote kv.1 ++ ":" ++ t)
          | .error e => .error e)) with
    | .ok fs => .ok ("\x7b" ++ ",".intercalate fs ++ "\x7d")
    | .error e => .error e
  | .unsupported shown => .error (Error.jsonUnsupported shown)
/-- The encodings of the elements of a slice. -/
def jsonMarshalElems : List Value → List (Except Error String)
  | [] => []
  | v :: vs => jsonMarshal v :: jsonMarshalElems vs
/-- The keys of a map paired with the encodings of their values. -/
def jsonMarshalFields : List (String × Value) → List (String × Except Error String)
  | [] => []
  | (k, v) :: kvs => (k, jsonMarshal v) :: jsonMarshalFields kvs
end

/-! ## encoding/json: the scanner and Compact -/

/-- The step functions of the JSON scanner (scanner.go). -/
inductive ScanStep where
  | stateBeginValueOrEmpty | stateBeginValue | stateBeginStringOrEmpty | stateBeginString
  | stateEndValue | stateEndTop
  | stateInString | stateInStringEsc
  | stateInStringEscU | stateInStringEscU1 | stateInStringEscU12 | stateInStringEscU123
  | stateNeg | state1 | state0 | stateDot | stateDot0 | stateE | stateESign | stateE0
  | stateT | stateTr | stateTru | stateF | stateFa | stateFal | stateFals
  | stateN | stateNu | stateNul
  | stateError
  deriving DecidableEq

/-- What the scanner is inside of: an object, before a key or after a value, or an array. -/
inductive ParseState where
  | parseObjectKey | parseObjectValue | parseArrayValue
  deriving DecidableEq

/-- The codes a step returns. From `scanSkipSpace` on, the byte is not part of the value. -/
inductive ScanCode where
  | scanContinue | scanBeginLiteral | scanBeginObject | scanObjectKey | scanObjectValue
  | scanEndObject | scanBeginArray | scanArrayValue | scanEndArray | scanSkipSpace
  | scanEnd | scanError
  deriving DecidableEq

/-- The JSON scanner: its current step, whether the top-level value has ended, the stack of
enclosing objects and arrays (innermost first), and the error it has met. -/
structure scanner where
  step : ScanStep
  endTop : Bool
  parseState : List ParseState
  err : Option Error

/-- The scanner of `newScanner`, after `reset`. -/
def newScanner : scanner := ⟨ScanStep.stateBeginValue, false, [], none⟩

/-- The nesting depth the scanner accepts. -/
def maxNestingDepth : Nat := 10000

/-- White space between JSON tokens: space, tab, carriage return, newline. -/
def isSpace (c : Char) : Bool :=
  c.toNat = 32 || c.toNat = 9 || c.toNat = 13 || c.toNat = 10

/-- A decimal digit between `lo` and 9. -/
def isDigitFrom (lo : Nat) (c : Char) : Bool :=
  decide (48 + lo ≤ c.toNat) && decide (c.toNat ≤ 57)

/-- A hexadecimal digit. -/
def isHex (c : Char) : Bool :=
  isDigitFrom 0 c || (decide (97 ≤ c.toNat) && decide (c.toNat ≤ 102))
    || (decide (65 ≤ c.toNat) && decide (c.toNat ≤ 70))

/-- Record an error: the scanner stays in `stateError` from here on. -/
def scanner.error (s : scanner) (context : String) : scanner × ScanCode :=
  ({ s with step := ScanStep.stateError,
            err := some (Error.jsonInvalid ("invalid character " ++ context)) },
   ScanCode.scanError)

/-- Move to another step and report `scanContinue`. -/
def scanner.goto (s : scanner) (step : ScanStep) (code : ScanCode) : scanner × ScanCode :=
  ({ s with step := step }, code)

/-- Enter an object or an array. -/
def scanner.pushParseState (s : scanner) (newParseState : ParseState) (successState : ScanCode) :
    scanner × ScanCode :=
  let s := { s with parseState := newParseState :: s.parseState }
  if s.parseState.length ≤ maxNestingDepth then (s, successState)
  else s.error "exceeded max depth"

/-- Leave an object or an array. -/
def scanner.popParseState (s : scanner) : scanner :=
  let rest := s.parseState.tail
  if rest.isEmpty then { s with parseState := rest, step := ScanStep.stateEndTop, endTop := true }
  else { s with parseState := rest, step := ScanStep.stateEndValue }

/-- The step after the top-level value: only white space may follow. -/
def stateEndTop (s : scanner) (c : Char) : scanner × ScanCode :=
  if !isSpace c then ((s.error "after top-level value").1, ScanCode.scanEnd)
  else (s, ScanCode.scanEnd)

/-- The step after a value: a comma, a colon, or the end of the enclosing object or array. -/
def stateEndValue (s : scanner) (c : Char) : scanner × ScanCode :=
  match s.parseState with
  | [] => stateEndTop { s with step := ScanStep.stateEndTop, endTop := true } c
  | ps :: rest =>
    if isSpace c then s.goto ScanStep.stateEndValue ScanCode.scanSkipSpace
    else
      match ps with
      | ParseState.parseObjectKey =>
        if c = ':' then
          ({ s with parseState := ParseState.parseObjectValue :: rest,
                    step := ScanStep.stateBeginValue }, ScanCode.scanObjectKey)
        else s.error "after object key"
      | ParseState.parseObjectValue =>
        if c = ',' then
          ({ s with parseState := ParseState.parseObjectKey :: rest,
                    step := ScanStep.stateBeginString }, ScanCode.scanObjectValue)
        else if c.toNat = 125 then (s.popParseState, ScanCode.scanEndObject)
        else s.error "after object key:value pair"
      | ParseState.parseArrayValue =>
        if c = ',' then s.goto ScanStep.stateBeginValue ScanCode.scanArrayValue
        else if c = ']' then (s.popParseState, ScanCode.scanEndArray)
        else s.error "after array element"

/-- The step at the beginning of a value. -/
def stateBeginValue (s : scanner) (c : Char) : scanner × ScanCode :=
  if isSpace c then (s, ScanCode.scanSkipSpace)
  else if c.toNat = 123 then
    { s with step := ScanStep.stateBeginStringOrEmpty }.pushParseState
      ParseState.parseObjectKey ScanCode.scanBeginObject
  else if c = '[' then
    { s with step := ScanStep.stateBeginValueOrEmpty }.pushParseState
      ParseState.parseArrayValue ScanCode.scanBeginArray
  else if c.toNat = 34 then s.goto ScanStep.stateInString ScanCode.scanBeginLiteral
  else if c = '-' then s.goto ScanStep.stateNeg ScanCode.scanBeginLiteral
  else if c = '0' then s.goto ScanStep.state0 ScanCode.scanBeginLiteral
  else if c = 't' then s.goto ScanStep.stateT ScanCode.scanBeginLiteral
  else if c = 'f' then s.goto ScanStep.stateF ScanCode.scanBeginLiteral
  else if c = 'n' then s.goto ScanStep.stateN ScanCode.scanBeginLiteral
  else if isDigitFrom 1 c then s.goto ScanStep.state1 ScanCode.scanBeginLiteral
  else s.error "looking for beginning of value"

/-- The step at the beginning of an object key. -/
def stateBeginString (s : scanner) (c : Char) : scanner × ScanCode :=
  if isSpace c then (s, ScanCode.scanSkipSpace)
  else if c.toNat = 34 then s.goto ScanStep.stateInString ScanCode.scanBeginLiteral
  else s.error "looking for beginning of object key string"

/-- The steps `state0` and, through it, the end of a number. -/
def state0 (s : scanner) (c : Char) : scanner × ScanCode :=
  if c = '.' then s.goto ScanStep.stateDot ScanCode.scanContinue
  else if c = 'e' ∨ c = 'E' then s.goto ScanStep.stateE ScanCode.scanContinue
  else stateEndValue s c

/-- The step after the exponent mark and its sign. -/
def stateESign (s : scanner) (c : Char) : scanner × ScanCode :=
  if isDigitFrom 0 c then s.goto ScanStep.stateE0 ScanCode.scanContinue
  else s.error "in exponent of numeric literal"

/-- One letter of a literal `true`, `false` or `null`. -/
def stateLetter (s : scanner) (c want : Char) (next : ScanStep) (context : String) :
    scanner × ScanCode :=
  if c = want then s.goto next ScanCode.scanContinue else s.error context

/-- One hexadecimal digit of a `\u` escape. -/
def stateHex (s : scanner) (c : Char) (next : ScanStep) : scanner × ScanCode :=
  if isHex c then s.goto next ScanCode.scanContinue
  else s.error "in \\u hexadecimal character escape"

/-- The call `s.step(s, c)`: feed one byte to the scanner. -/
def scanner.run (s : scanner) (c : Char) : scanner × ScanCode :=
  match s.step with
  | .stateBeginValueOrEmpty =>
    if isSpace c then (s, ScanCode.scanSkipSpace)
    else if c = ']' then stateEndValue s c
    else stateBeginValue s c
  | .stateBeginValue => stateBeginValue s c
  | .stateBeginStringOrEmpty =>
    if isSpace c then (s, ScanCode.scanSkipSpace)
    else if c.toNat = 125 then
      stateEndValue { s with parseState := ParseState.parseObjectValue :: s.parseState.tail } c
    else stateBeginString s c
  | .stateBeginString => stateBeginString s c
  | .stateEndValue => stateEndValue s c
  | .stateEndTop => stateEndTop s c
  | .stateInString =>
    if c.toNat = 34 then s.goto ScanStep.stateEndValue ScanCode.scanContinue
    else if c.toNat = 92 then s.goto ScanStep.stateInStringEsc ScanCode.scanContinue
    else if c.toNat < 32 then s.error "in string literal"
    else (s, ScanCode.scanContinue)
  | .stateInStringEsc =>
    if c = 'b' ∨ c = 'f' ∨ c = 'n' ∨ c = 'r' ∨ c = 't' ∨ c.toNat = 92 ∨ c = '/'
        ∨ c.toNat = 34 then
      s.goto ScanStep.stateInString ScanCode.scanContinue
    else if c = 'u' then s.goto ScanStep.stateInStringEscU ScanCode.scanContinue
    else s.error "in string escape code"
  | .stateInStringEscU => stateHex s c ScanStep.stateInStringEscU1
  | .stateInStringEscU1 => stateHex s c ScanStep.stateInStringEscU12
  | .stateInStringEscU12 => stateHex s c ScanStep.stateInStringEscU123
  | .stateInStringEscU123 => stateHex s c ScanStep.stateInString
  | .stateNeg =>
    if c = '0' then s.goto ScanStep.state0 ScanCode.scanContinue
    else if isDigitFrom 1 c then s.goto ScanStep.state1 ScanCode.scanContinue
    else s.error "in numeric literal"
  | .state1 =>
    if isDigitFrom 0 c then s.goto ScanStep.state1 ScanCode.scanContinue else state0 s c
  | .state0 => state0 s c
  | .stateDot =>
    if isDigitFrom 0 c then s.goto ScanStep.stateDot0 ScanCode.scanContinue
    else s.error "after decimal point in numeric literal"
  | .stateDot0 =>
    if isDigitFrom 0 c then (s, ScanCode.scanContinue)
    else if c = 'e' ∨ c = 'E' then s.goto ScanStep.stateE ScanCode.scanContinue
    else stateEndValue s c
  | .stateE =>
    if c = '+' ∨ c = '-' then s.goto ScanStep.stateESign ScanCode.scanContinue
    else stateESign s c
  | .stateESign => stateESign s c
  | .stateE0 =>
    if isDigitFrom 0 c then (s, ScanCode.scanContinue) else stateEndValue s c
  | .stateT => stateLetter s c 'r' ScanStep.stateTr "in literal true (expecting r)"
  | .stateTr => stateLetter s c 'u' ScanStep.stateTru "in literal true (expecting u)"
  | .stateTru => stateLetter s c 'e' ScanStep.stateEndValue "in literal true (expecting e)"
  | .stateF => stateLetter s c 'a' ScanStep.stateFa "in literal false (expecting a)"
  | .stateFa => stateLetter s c 'l' ScanStep.stateFal "in literal false (expecting l)"
  | .stateFal => stateLetter s c 's' ScanStep.stateFals "in literal false (expecting s)"
  | .stateFals => stateLetter s c 'e' ScanStep.stateEndValue "in literal false (expecting e)"
  | .stateN => stateLetter s c 'u' ScanStep.stateNu "in literal null (expecting u)"
  | .stateNu => stateLetter s c 'l' ScanStep.stateNul "in literal null (expecting l)"
  | .stateNul => stateLetter s c 'l' ScanStep.stateEndValue "in literal null (expecting l)"
  | .stateError => (s, ScanCode.scanError)

/-- The call `s.eof()`: the input has ended; `scanError` unless a complete value was read. -/
def scanner.eof (s : scanner) : scanner × ScanCode :=
  if s.err.isSome then (s, ScanCode.scanError)
  else if s.endTop then (s, ScanCode.scanEnd)
  else
    let s := (s.run ' ').1
    if s.endTop then (s, ScanCode.scanEnd)
    else
      ((if s.err.isNone then
          { s with err := some (Error.jsonInvalid "unexpected end of JSON input") }
        else s), ScanCode.scanError)

/-- The loop of `json.Compact` over the input: bytes for which the scanner answers
`scanSkipSpace` or `scanEnd` are dropped, `scanError` ends the loop. `kept` holds the bytes
kept so far, last first. -/
def compactLoop : scanner → List Char → List Char → scanner × List Char
  | s, [], kept => (s, kept)
  | s, c :: cs, kept =>
    match s.run c with
    | (s, ScanCode.scanError) => (s, kept)
    | (s, ScanCode.scanSkipSpace) => compactLoop s cs kept
    | (s, ScanCode.scanEnd) => compactLoop s cs kept
    | (s, _) => compactLoop s cs (c :: kept)

/-- The function `json.Compact` into a fresh buffer: the input without its insignificant
white space, or the error of the scanner when the input is not one JSON value. -/
def jsonCompact (src : String) : Except Error String :=
  let (s, kept) := compactLoop newScanner src.data []
  match s.eof with
  | (s, ScanCode.scanError) => .error (s.err.getD (Error.jsonInvalid ""))
  | _ => .ok (String.mk kept.reverse)

/-! ## stub.go: decoding -/

/-- The call `json.Unmarshal(b, stub)` of getStubFromBytes. Its target is the nil `*Stub`
just declared, so it never decodes: malformed input gives the scanner error, and well-formed
input the error for a nil target. -/
def jsonUnmarshalNil (b : String) : Error :=
  match jsonCompact b with
  | .error e => e
  | .ok _ => Error.decodeFailed "json: Unmarshal(nil *gmock.Stub)"

/-- A stub from a byte array. `yamlUnmarshal` is `yaml.Unmarshal(b, &stub)`: an error, or the
pointer it leaves in `stub`, which stays nil (`none`) when the input holds no document. The
JSON attempt always fails, so every input goes through YAML. -/
def getStubFromBytes (yamlUnmarshal : String → Except Error (Option Stub)) (b : String) :
    Option Stub × Option Error :=
  let _err := jsonUnmarshalNil b
  match yamlUnmarshal b with
  | .error err => (none, some err)
  | .ok stub => (stub, none)

/-! ## server.go -/

/-- The map of hash to stub. -/
structure stubHashMap where
  entries : List (hash × Stub)
  nodupKeys : (entries.map Prod.fst).Nodup

/-- The empty map, `make(stubHashMap)`. -/
def stubHashMap.empty : stubHashMap := ⟨[], List.nodup_nil⟩

/-- The lookup `m[h]`, with its `ok`. -/
def stubHashMap.get (m : stubHashMap) (h : hash) : Option Stub :=
  (m.entries.find? (fun e => decide (e.1 = h))).map Prod.snd

/-- The assignment `m[h] = stub`: an entry under `h` is replaced. -/
def stubHashMap.set (m : stubHashMap) (h : hash) (stub : Stub) : stubHashMap :=
  ⟨(h, stub) :: m.entries.filter (fun e => decide (e.1 ≠ h)), by
    simp only [List.map_cons, List.nodup_cons]
    refine ⟨?_, ?_⟩
    · intro hmem
      obtain ⟨e, he, hk⟩ := List.mem_map.1 hmem
      have hne := (List.mem_filter.1 he).2
      simp only [decide_eq_true_eq] at hne
      exact hne hk
    · exact m.nodupKeys.sublist ((List.filter_sublist _).map _)⟩

/-- The keys of the map. -/
def stubHashMap.keys (m : stubHashMap) : List hash := m.entries.map Prod.fst

/-- The builtin `len`. -/
def stubHashMap.len (m : stubHashMap) : Nat := m.entries.length

/-- The HTTP mock server (the `*http.Server` it wraps is outside the embedding). -/
structure Server where
  stubs : stubHashMap
  dir : String
  port : Int

/-- A new server: no stubs, the default directory and port. -/
def NewServer : Server := ⟨stubHashMap.empty, "stubs", 8080⟩

/-- What addStub leaves behind: the errors it returns, the server, and the content of the
stub it was handed (it writes the sanitized path and the compacted body into it). -/
structure Added where
  errs : Slice Error
  server : Server
  stub : Stub

/-- The block "compact JSON body before hashing" of addStub: a body that is not nil is
replaced by the string `json.Compact` makes of its `json.Marshal` encoding. -/
def compactStubBody (body : Value) : Except Error Value :=
  match body with
  | Value.null => .ok Value.null
  | body =>
    match jsonMarshal body with
    | .error err => .error err
    | .ok bodyBytes =>
      match jsonCompact bodyBytes with
      | .error err => .error err
      | .ok buff => .ok (Value.str buff)

/-- Add a stub to the server. `none` is the nil pointer: `stub.Request` panics on it. -/
def addStub (s : Server) (stub : Option Stub) : Run Added :=
  match stub with
  | none => Run.panicked
  | some stub =>
    let stub : Stub := { stub with Request := stub.Request.Sanitize }
    let errs := stub.validationErrors
    if errs.len > 0 then Run.ret ⟨errs, s, stub⟩
    else
      match compactStubBody stub.Request.Body with
      | .error err => Run.ret ⟨some [err], s, stub⟩
      | .ok body =>
        let stub : Stub := { stub with Request := { stub.Request with Body := body } }
        let h := getHash stub.Request
        Run.ret ⟨some [], { s with stubs := s.stubs.set h stub }, stub⟩

/-- Add multiple stubs to the server, in order; the errors of each are dropped. -/
def addStubs (s : Server) : List (Option Stub) → Run Server
  | [] => Run.ret s
  | v :: rest =>
    match addStub s v with
    | Run.panicked => Run.panicked
    | Run.ret r => addStubs r.server rest

/-- Clear all stubs from the server. -/
def ClearStubs (s : Server) : Server := { s with stubs := stubHashMap.empty }

/-! ## net/http: the request as the handlers read it, and the response writer -/

/-- A request body: the bytes it yields, and the error that ends the reading when it is not
the end of the input. -/
structure Reader where
  data : String
  err : Option Error

/-- The function `io.ReadAll`: the bytes read, never the nil slice, and the error. -/
def ioReadAll (r : Reader) : Option String × Option Error := (some r.data, r.err)

/-- The fields of `*http.Request` the handlers read: `r.Method`, `r.URL.Path`,
`r.URL.Query()` and `r.Body`. -/
structure Request where
  Method : String
  Path : String
  Query : Values
  Body : Reader

/-- The response writer of net/http: the header map, the status and header once they are
committed, and the body written. -/
structure ResponseWriter where
  header : Values
  sent : Option (Int × Values)
  body : String

/-- The writer a handler starts with. -/
def newResponseWriter : ResponseWriter := ⟨[], none, ""⟩

/-- The method `WriteHeader`: commits the status and the header; a second call is
superfluous and changes nothing. -/
def ResponseWriter.WriteHeader (w : ResponseWriter) (code : Int) : ResponseWriter :=
  match w.sent with
  | some _ => w
  | none => { w with sent := some (code, w.header) }

/-- The method `Write`: a first write commits status 200, then the bytes join the body. The
connection is taken to accept them, so the error result is nil. -/
def ResponseWriter.Write (w : ResponseWriter) (data : String) : ResponseWriter :=
  let w := match w.sent with
    | some _ => w
    | none => w.WriteHeader 200
  { w with body := w.body ++ data }

/-- The status the client receives: the committed one, or 200 when the handler returned
without committing any. -/
def ResponseWriter.status (w : ResponseWriter) : Int :=
  match w.sent with
  | some (code, _) => code
  | none => 200

/-- A byte allowed in a header field name (an HTTP token). -/
def validHeaderFieldByte (c : Char) : Bool :=
  let n := c.toNat
  (decide (48 ≤ n) && decide (n ≤ 57)) || (decide (65 ≤ n) && decide (n ≤ 90))
    || (decide (97 ≤ n) && decide (n ≤ 122))
    || [33, 35, 36, 37, 38, 39, 42, 43, 45, 46, 94, 95, 96, 124, 126].contains n

/-- Upper case after the start and after each dash, lower case elsewhere. -/
def canonicalLetters : Bool → List Char → List Char
  | _, [] => []
  | upper, c :: cs =>
    let n := c.toNat
    let c' := if upper && decide (97 ≤ n) && decide (n ≤ 122) then Char.ofNat (n - 32)
      else if !upper && decide (65 ≤ n) && decide (n ≤ 90) then Char.ofNat (n + 32)
      else c
    c' :: canonicalLetters (decide (c' = '-')) cs

/-- The function `textproto.CanonicalMIMEHeaderKey`: a name that is not a token stays as
it is. -/
def canonicalMIMEHeaderKey (s : String) : String :=
  if s.data.all validHeaderFieldByte then String.mk (canonicalLetters true s.data) else s

/-- The method `Header.Add`: the value joins those of the canonical key. -/
def headerAdd (h : Values) (key value : String) : Values :=
  let k := canonicalMIMEHeaderKey key
  if h.any (fun e => decide (e.1 = k)) then
    h.map (fun e => if e.1 = k then (e.1, e.2 ++ [value]) else e)
  else h ++ [(k, [value])]

/-- The method `Header.Set`: the canonical key gets this single value. -/
def headerSet (h : Values) (key value : String) : Values :=
  let k := canonicalMIMEHeaderKey key
  if h.any (fun e => decide (e.1 = k)) then
    h.map (fun e => if e.1 = k then (e.1, [value]) else e)
  else h ++ [(k, [value])]

/-- The two loops of the handler over the headers of a stub response. -/
def addStubHeaders (h : Values) (headers : Values) : Values :=
  headers.foldl (fun h kv => kv.2.foldl (fun h vv => headerAdd h kv.1 vv) h) h

/-! ## handler.go -/

/-- The default content type for stubs. -/
def defaultContentType : String := "application/json"

/-- The handler for the /httpmock/add endpoint: 405 unless POST, 400 when the body cannot be
read or decoded or the stub is invalid, 201 when the stub is added. -/
def addStubHandler (yamlUnmarshal : String → Except Error (Option Stub)) (s : Server)
    (w : ResponseWriter) (r : Request) : Run (Server × ResponseWriter) :=
  if r.Method ≠ "POST" then Run.ret (s, w.WriteHeader 405)
  else
    match ioReadAll r.Body with
    | (_, some _) => Run.ret (s, w.WriteHeader 400)
    | (body, none) =>
      match getStubFromBytes yamlUnmarshal (body.getD "") with
      | (_, some _) => Run.ret (s, w.WriteHeader 400)
      | (stub, none) =>
        match addStub s stub with
        | Run.panicked => Run.panicked
        | Run.ret r =>
          if r.errs.len > 0 then Run.ret (r.server, w.WriteHeader 400)
          else Run.ret (r.server, w.WriteHeader 201)

/-- The handler for any stub endpoint: the stub response if the current request is an
existing stub request, else 404 Not Found. -/
def genericStubHandler (s : Server) (w : ResponseWriter) (r : Request) : ResponseWriter :=
  match ioReadAll r.Body with
  | (_, some _) => w.WriteHeader 400
  | (body, none) =>
    let compacted : Except Error String :=
      match body with
      | some body => jsonCompact body
      | none => .ok ""
    match compacted with
    | .error _ => w.WriteHeader 400
    | .ok compactedBody =>
      let h := getHash ⟨r.Method, r.Path, r.Query, Value.str compactedBody⟩
      match s.stubs.get h with
      | some stub =>
        let w := { w with header := addStubHeaders w.header stub.Response.Headers }
        let w :=
          if (w.header.lookup "Content-Type").isNone then
            { w with header := headerSet w.header "Content-Type" defaultContentType }
          else w
        match jsonMarshal stub.Response.Body with
        | .error _ => w.WriteHeader 500
        | .ok body =>
          let w := w.Write body
          if stub.Response.StatusCode ≠ 200 then w.WriteHeader stub.Response.StatusCode else w
      | none => w.WriteHeader 404


/-! ## Sample values -/

/-- A stub that breaks every validation rule. -/
def stubInvalid : Stub := ⟨⟨"", "", [], Value.null⟩, ⟨700, [], Value.null⟩⟩

/-- A stub already in the registry: GET /test?a=1&b=2 with no body. -/
def stubOld : Stub :=
  ⟨⟨"GET", "/test", [("a", ["1"]), ("b", ["2"])], Value.null⟩, ⟨200, [], Value.str "old"⟩⟩

/-- A stub for GET test?a=1&b=2 with no body, answering 200. -/
def stubFirst : Stub :=
  ⟨⟨"GET", "test", [("b", ["2"]), ("a", ["1"])], Value.null⟩, ⟨200, [], Value.str "first"⟩⟩

/-- A stub for the same request, answering 201. -/
def stubSecond : Stub :=
  ⟨⟨"GET", "/test", [("a", ["1"]), ("b", ["2"])], Value.null⟩, ⟨201, [], Value.str "second"⟩⟩

/-- A stub that passes validation and whose request body `json.Marshal` refuses. -/
def stubNaN : Stub := ⟨⟨"GET", "/nan", [], Value.unsupported "NaN"⟩, ⟨200, [], Value.null⟩⟩

/-- The same request with another response. -/
def stubNaN2 : Stub := ⟨⟨"GET", "/nan", [], Value.unsupported "NaN"⟩, ⟨201, [], Value.null⟩⟩

/-- The stub of the end-to-end example: GET test with no body, answering 200 with a JSON
text held in a string. -/
def stubNoBody : Stub :=
  ⟨⟨"GET", "test", [], Value.null⟩, ⟨200, [], Value.str "\x7b\"to\":\"json\"\x7d"⟩⟩

/-- The request GET /test with an empty body. -/
def requestNoBody : Request := ⟨"GET", "/test", [], ⟨"", none⟩⟩

/-- The request GET /unknown whose body is the JSON value null. -/
def requestUnknown : Request := ⟨"GET", "/unknown", [], ⟨"null", none⟩⟩

/-- The request GET /unknown whose body is not JSON. -/
def requestMalformed : Request := ⟨"GET", "/unknown", [], ⟨"hello", none⟩⟩

/-- A stub whose request body is a JSON text held in a string. -/
def stubTight : Stub :=
  ⟨⟨"GET", "/test", [], Value.str "\x7b\"a\":1\x7d"⟩, ⟨200, [], Value.null⟩⟩

/-- The same stub, its JSON text written with a space after the colon. -/
def stubSpaced : Stub :=
  ⟨⟨"GET", "/test", [], Value.str "\x7b\"a\": 1\x7d"⟩, ⟨200, [], Value.null⟩⟩

/-- A stub answering 201 to POST /items?id=1 with body {"a":1}. -/
def stubCreated : Stub :=
  ⟨⟨"POST", "items", [("id", ["1"])], Value.obj [("a", Value.int 1)]⟩,
   ⟨201, [("x-test", ["t"])], Value.str "created"⟩⟩

/-- The request POST /items?id=1 with that body, spaces included. -/
def requestCreated : Request :=
  ⟨"POST", "/items", [("id", ["1"])], ⟨"\x7b \"a\" : 1 \x7d", none⟩⟩

/-- The results of `yaml.Unmarshal` that Test_getStubFromBytes records: the empty input
leaves the stub nil without an error, `invalid` is an error; `\x7b\x7d` is the empty stub.
Inputs outside the table are reported as errors here. -/
def yamlUnmarshalTable (b : String) : Except Error (Option Stub) :=
  if b = "" then .ok none
  else if b = "\x7b\x7d" then .ok (some ⟨⟨"", "", [], Value.null⟩, ⟨0, [], Value.null⟩⟩)
  else .error (Error.decodeFailed "yaml: unmarshal errors")

/-- The request GET /unknown with an empty body. -/
def requestUnknownNoBody : Request := ⟨"GET", "/unknown", [], ⟨"", none⟩⟩

/-- A request whose text has characters of two, three and four bytes, two parameters listed
out of order, and more than one block of sixty-four bytes. -/
def requestLong : StubRequest :=
  ⟨"POST", "/café/€/😀", [("b", ["2", "3"]), ("a", ["1"])],
   Value.str "héllo wörld, a body long enough to fill more than one block"⟩

/-- The value a call returned, if it returned. -/
def Run.toOption {α : Type} : Run α → Option α
  | Run.ret a => some a
  | Run.panicked => none

/-- The stub of TestNewServerWithConfig: GET /test answering 200 with the string `\x7b\x7d`. -/
def stubTest : Stub := ⟨⟨"GET", "/test", [], Value.null⟩, ⟨200, [], Value.str "\x7b\x7d"⟩⟩

/-- The request of a stub for POST /search whose parameter a has the one value `1 2`. -/
def requestOneValue : StubRequest :=
  ⟨"POST", "/search", [("a", ["1 2"])], Value.str "\x7b\"k\":1\x7d"⟩

/-- The same request, its parameter a holding the two values `1` and `2`. -/
def requestTwoValues : StubRequest :=
  ⟨"POST", "/search", [("a", ["1", "2"])], Value.str "\x7b\"k\":1\x7d"⟩

/-- A stub for POST /search?a=1+2 with body {"k":1}. -/
def stubOneValue : Stub :=
  ⟨⟨"POST", "/search", [("a", ["1 2"])], Value.obj [("k", Value.int 1)]⟩,
   ⟨200, [], Value.str "one value"⟩⟩

/-- The inbound request POST /search?a=1&a=2 with body {"k":1}. -/
def inboundTwoValues : Request :=
  ⟨"POST", "/search", [("a", ["1", "2"])], ⟨"\x7b\"k\":1\x7d", none⟩⟩

/-- The stub of examples/main.go: GET /test?id=1 with a JSON text in a string as body. -/
def stubExample : Stub :=
  ⟨⟨"GET", "/test", [("id", ["1"])], Value.str "\x7b\"from\":\"json\"\x7d"⟩,
   ⟨200, [("X-Test", ["test"])], Value.str "\x7b\"to\":\"json\"\x7d"⟩⟩

/-- The call addStub on a stub, then addStub again on the same `*Stub`: the second call gets
the stub as the first one left it (as in `AddStubs(stub, stub)` of examples/main.go). -/
def addStubTwice (s : Server) (stub : Stub) : Run Added :=
  match addStub s (some stub) with
  | Run.panicked => Run.panicked
  | Run.ret r => addStub r.server (some r.stub)

/-! ## The library models on known values -/

/-- The digests Test_asSha256 records for the strings test and the empty string. -/
theorem asSha256_test_strings :
    asSha256 "test" = "9f86d081884c7d659a2feaa0c55ad015a3bf4f1b2b0b822cd15d6c15b0f00a08"
    ∧ asSha256 "" = "e3b0c44298fc1c149afbf4c8996fb92427ae41e4649b934ca495991b7852b855" := by
  decide!

/-- Compact on sample inputs: white space outside strings goes, white space inside stays;
the empty input, a bare word, two values and a trailing comma are errors. -/
theorem jsonCompact_samples :
    (jsonCompact " \x7b \"a b\" : [ 1 , -2.5e+3 , true , null ] \x7d ").toOption
      = some "\x7b\"a b\":[1,-2.5e+3,true,null]\x7d"
    ∧ (jsonCompact "").toOption = none
    ∧ (jsonCompact "   ").toOption = none
    ∧ (jsonCompact "hello").toOption = none
    ∧ (jsonCompact "1 2").toOption = none
    ∧ (jsonCompact "[1,]").toOption = none := by
  decide

/-- Marshal on sample values: keys ascending, strings quoted and escaped, no white space;
a value that cannot be encoded anywhere inside is an error. -/
theorem jsonMarshal_samples :
    (jsonMarshal (Value.obj [("b", Value.int (-1)), ("a", Value.arr [Value.str "x y",
        Value.null, Value.bool true])])).toOption
      = some "\x7b\"a\":[\"x y\",null,true],\"b\":-1\x7d"
    ∧ (jsonMarshal (Value.str "\x7b\"a\": 1\x7d")).toOption
      = some "\"\x7b\\\"a\\\": 1\x7d\""
    ∧ (jsonMarshal (Value.arr [Value.int 1, Value.unsupported "NaN"])).toOption = none := by
  decide

/-! ## Validation -/

theorem lookup_isNone_iff {β : Type} (k : String) (l : List (String × β)) :
    (l.lookup k).isNone = true ↔ k ∉ l.map Prod.fst := by
  induction l with
  | nil => simp [List.lookup]
  | cons x xs ih =>
    obtain ⟨a, b⟩ := x
    by_cases h : k = a
    · subst h
      simp [List.lookup]
    · have h' : (k == a) = false := by simpa using h
      simp [List.lookup, h', ih, h]

theorem len_goAppend {α : Type} (s : Slice α) (xs : List α) :
    (goAppend s xs).toList = s.toList ++ xs := by
  cases xs with
  | nil => simp [goAppend]
  | cons x xs => simp [goAppend, Slice.toList]

theorem goAppend_eq_none {α : Type} (s : Slice α) (xs : List α) :
    goAppend s xs = none ↔ s = none ∧ xs = [] := by
  cases xs with
  | nil => simp [goAppend]
  | cons x xs => simp [goAppend]

/-- C8: Validate on a request returns, in this order, errRequiredMethod iff the method is
empty, otherwise errInvalidMethod with the method iff it is not one of the nine HTTP methods
(case-sensitive), then errRequiredPath iff the path is empty, and nothing else; the result is
the nil slice exactly when the method is one of the nine and the path is not empty. -/
theorem C8_request_validate (r : StubRequest) :
    r.Validate.toList =
      (if r.Method = "" then [Error.errRequiredMethod]
       else if r.Method ∈ ["GET", "HEAD", "POST", "PUT", "PATCH", "DELETE", "CONNECT",
          "OPTIONS", "TRACE"] then []
       else [Error.errInvalidMethod r.Method])
      ++ (if r.Path = "" then [Error.errRequiredPath] else [])
    ∧ (r.Validate = none ↔
        (r.Method ∈ ["GET", "HEAD", "POST", "PUT", "PATCH", "DELETE", "CONNECT",
          "OPTIONS", "TRACE"] ∧ r.Path ≠ "")) := by
  have hk : httpMethods.map Prod.fst = ["GET", "HEAD", "POST", "PUT", "PATCH", "DELETE",
      "CONNECT", "OPTIONS", "TRACE"] := by decide
  have hl : (httpMethods.lookup r.Method).isNone = true ↔
      r.Method ∉ ["GET", "HEAD", "POST", "PUT", "PATCH", "DELETE", "CONNECT",
        "OPTIONS", "TRACE"] := by
    rw [lookup_isNone_iff, hk]
  unfold StubRequest.Validate
  by_cases hm : r.Method = ""
  · have hnot : r.Method ∉ ["GET", "HEAD", "POST", "PUT", "PATCH", "DELETE", "CONNECT",
        "OPTIONS", "TRACE"] := by rw [hm]; decide
    by_cases hp : r.Path = "" <;> simp [hm, hp, goAppend, Slice.toList, hnot]
  · by_cases hin : r.Method ∈ ["GET", "HEAD", "POST", "PUT", "PATCH", "DELETE", "CONNECT",
        "OPTIONS", "TRACE"]
    · have hsome : ¬ (httpMethods.lookup r.Method).isNone = true := by
        rw [hl]; exact not_not.2 hin
      by_cases hp : r.Path = "" <;> simp [hm, hp, goAppend, Slice.toList, hin, hsome]
    · have hnone : (httpMethods.lookup r.Method).isNone = true := hl.2 hin
      by_cases hp : r.Path = "" <;> simp [hm, hp, goAppend, Slice.toList, hin, hnone]

/-- C9: Validate on a response returns exactly one errInvalidStatusCode carrying the code when
the status code is below 200 or above 599, and the nil slice for every code from 200 to 599. -/
theorem C9_response_validate (r : StubResponse) :
    ((r.StatusCode < 200 ∨ 599 < r.StatusCode) →
        r.Validate = some [Error.errInvalidStatusCode r.StatusCode])
    ∧ ((200 ≤ r.StatusCode ∧ r.StatusCode ≤ 599) → r.Validate = none) := by
  unfold StubResponse.Validate
  constructor
  · intro h
    have h' : r.StatusCode < 200 ∨ r.StatusCode > 599 := h
    simp [h', goAppend, Slice.toList]
  · intro h
    have h' : ¬ (r.StatusCode < 200 ∨ r.StatusCode > 599) := by omega
    simp [h']

theorem validate_request_len (r : StubRequest) :
    r.Validate.len = 0 ↔ r.Validate = none := by
  unfold StubRequest.Validate Slice.len
  by_cases hm : r.Method = "" <;> by_cases hp : r.Path = "" <;>
    by_cases hl : (httpMethods.lookup r.Method).isNone = true <;>
    simp [hm, hp, hl, goAppend, Slice.toList]

theorem validate_response_len (r : StubResponse) :
    r.Validate.len = 0 ↔ r.Validate = none := by
  unfold StubResponse.Validate Slice.len
  by_cases h : r.StatusCode < 200 ∨ r.StatusCode > 599 <;> simp [h, goAppend, Slice.toList]

theorem validationErrors_toList (t : Stub) :
    t.validationErrors.toList = t.Request.Validate.toList ++ t.Response.Validate.toList := by
  unfold Stub.validationErrors
  exact len_goAppend _ _

theorem validationErrors_len (t : Stub) :
    t.validationErrors.len = t.Request.Validate.len + t.Response.Validate.len := by
  unfold Slice.len
  rw [validationErrors_toList, List.length_append]

theorem addStub_of_invalid (s : Server) (stub : Stub)
    (h : 0 < stub.Request.Sanitize.Validate.len ∨ 0 < stub.Response.Validate.len) :
    addStub s (some stub) =
      Run.ret ⟨Stub.validationErrors { stub with Request := stub.Request.Sanitize }, s,
        { stub with Request := stub.Request.Sanitize }⟩ := by
  have hlen : 0 < Slice.len (Stub.validationErrors
      { stub with Request := stub.Request.Sanitize }) := by
    rw [validationErrors_len]
    rcases h with h | h
    · exact Nat.lt_of_lt_of_le h (Nat.le_add_right _ _)
    · exact Nat.lt_of_lt_of_le h (Nat.le_add_left _ _)
  simp only [addStub]
  rw [if_pos hlen]

/-- C1: when the sanitized request or the response of a stub fails validation, addStub
returns a non-empty error list and the server, with its registry, is what it was before the
call. -/
theorem C1_addStub_invalid_keeps_registry (s : Server) (stub : Stub)
    (h : 0 < stub.Request.Sanitize.Validate.len ∨ 0 < stub.Response.Validate.len) :
    ∃ r, addStub s (some stub) = Run.ret r ∧ 0 < r.errs.len ∧ r.server = s
      ∧ r.server.stubs.keys = s.stubs.keys
      ∧ ∀ k, r.server.stubs.get k = s.stubs.get k := by
  refine ⟨_, addStub_of_invalid s stub h, ?_, rfl, rfl, fun _ => rfl⟩
  show 0 < Slice.len (Stub.validationErrors { stub with Request := stub.Request.Sanitize })
  rw [validationErrors_len]
  rcases h with h | h
  · exact Nat.lt_of_lt_of_le h (Nat.le_add_right _ _)
  · exact Nat.lt_of_lt_of_le h (Nat.le_add_left _ _)

/-- The instance of C1 at a stub with an empty method, an empty path and status code 700,
added to a new server. -/
theorem C1_witness :
    (0 < stubInvalid.Request.Sanitize.Validate.len ∨ 0 < stubInvalid.Response.Validate.len)
    ∧ ∃ r, addStub NewServer (some stubInvalid) = Run.ret r ∧ 0 < r.errs.len
      ∧ r.server = NewServer
      ∧ r.server.stubs.keys = NewServer.stubs.keys
      ∧ ∀ k, r.server.stubs.get k = NewServer.stubs.get k :=
  ⟨by decide, C1_addStub_invalid_keeps_registry NewServer stubInvalid (by decide)⟩

/-- C10: for a stub that fails validation, the errors addStub returns are those of Validate
on the sanitized request followed by those of Validate on the response, all of them; and for
every stub the combined list is empty iff both parts are empty. -/
theorem C10_addStub_returns_all_errors (s : Server) (stub : Stub)
    (h : 0 < stub.Request.Sanitize.Validate.len ∨ 0 < stub.Response.Validate.len) :
    (∃ r, addStub s (some stub) = Run.ret r ∧
      r.errs.toList = stub.Request.Sanitize.Validate.toList ++ stub.Response.Validate.toList)
    ∧ ∀ t : Stub, (t.validationErrors.len = 0 ↔
        (t.Request.Validate.len = 0 ∧ t.Response.Validate.len = 0)) := by
  constructor
  · exact ⟨_, addStub_of_invalid s stub h,
      validationErrors_toList { stub with Request := stub.Request.Sanitize }⟩
  · intro t
    rw [validationErrors_len]
    omega

/-- The instance of C10 at a stub with an empty method, an empty path and status code 700:
three errors, required method, required path, invalid status code 700. -/
theorem C10_witness :
    (0 < stubInvalid.Request.Sanitize.Validate.len ∨ 0 < stubInvalid.Response.Validate.len)
    ∧ ∃ r, addStub NewServer (some stubInvalid) = Run.ret r ∧
      r.errs.toList = [Error.errRequiredMethod, Error.errRequiredPath,
        Error.errInvalidStatusCode 700] := by
  refine ⟨by decide, ?_⟩
  obtain ⟨r, hr, he⟩ := (C10_addStub_returns_all_errors NewServer stubInvalid (by decide)).1
  exact ⟨r, hr, by rw [he]; decide⟩

/-! ## The registry -/

theorem find_filter_ne (l : List (hash × Stub)) (h k : hash) (hk : k ≠ h) :
    (l.filter (fun e => decide (e.1 ≠ h))).find? (fun e => decide (e.1 = k))
      = l.find? (fun e => decide (e.1 = k)) := by
  induction l with
  | nil => rfl
  | cons x xs ih =>
    by_cases hx : x.1 = h
    · have hxk : ¬ x.1 = k := fun e => hk (e ▸ hx)
      have h1 : decide (x.1 ≠ h) = false := decide_eq_false (not_not.2 hx)
      have h2 : decide (x.1 = k) = false := decide_eq_false hxk
      rw [List.filter_cons, List.find?_cons]
      simp only [h1, h2, Bool.false_eq_true, if_false]
      exact ih
    · have h1 : decide (x.1 ≠ h) = true := decide_eq_true hx
      rw [List.filter_cons]
      simp only [h1, if_true]
      rw [List.find?_cons, List.find?_cons, ih]

theorem get_set_self (m : stubHashMap) (h : hash) (stub : Stub) :
    (m.set h stub).get h = some stub := by
  simp [stubHashMap.get, stubHashMap.set, List.find?]

theorem get_set_ne (m : stubHashMap) (h k : hash) (stub : Stub) (hk : k ≠ h) :
    (m.set h stub).get k = m.get k := by
  have hhk : ¬ h = k := fun e => hk e.symm
  simp only [stubHashMap.get, stubHashMap.set, List.find?, hhk, decide_False]
  rw [find_filter_ne _ _ _ hk]

theorem keys_set (m : stubHashMap) (h : hash) (stub : Stub) :
    (m.set h stub).keys = h :: m.keys.filter (fun k => decide (k ≠ h)) := by
  simp only [stubHashMap.keys, stubHashMap.set, List.map_cons, List.filter_map]
  rfl

theorem count_keys_set (m : stubHashMap) (h : hash) (stub : Stub) :
    (m.set h stub).keys.count h = 1 := by
  rw [keys_set, List.count_cons_self]
  have : List.count h (m.keys.filter (fun k => decide (k ≠ h))) = 0 := by
    rw [List.count_eq_zero]
    intro hmem
    have := (List.mem_filter.1 hmem).2
    simp at this
  omega

theorem length_filter_ne_of_nodup (l : List hash) (h : hash) (hn : l.Nodup) :
    (l.filter (fun k => decide (k ≠ h))).length + (if h ∈ l then 1 else 0) = l.length := by
  induction l with
  | nil => rfl
  | cons x xs ih =>
    have hx := (List.nodup_cons.1 hn)
    have ih' := ih hx.2
    by_cases hxh : x = h
    · have hnot : h ∉ xs := hxh ▸ hx.1
      have h1 : decide (x ≠ h) = false := decide_eq_false (not_not.2 hxh)
      have hmem : h ∈ x :: xs := hxh ▸ List.mem_cons_self x xs
      rw [if_neg hnot] at ih'
      rw [List.filter_cons, if_pos hmem, List.length_cons]
      simp only [h1, Bool.false_eq_true, if_false]
      omega
    · have h1 : decide (x ≠ h) = true := decide_eq_true hxh
      have hiff : (h ∈ x :: xs) ↔ h ∈ xs := by
        rw [List.mem_cons]
        exact ⟨fun e => e.resolve_left (fun e' => hxh e'.symm), Or.inr⟩
      rw [List.filter_cons]
      simp only [h1, if_true, List.length_cons]
      by_cases hmem : h ∈ xs
      · rw [if_pos hmem] at ih'
        rw [if_pos (hiff.2 hmem)]
        omega
      · rw [if_neg hmem] at ih'
        rw [if_neg (fun e => hmem (hiff.1 e))]
        omega

theorem len_set (m : stubHashMap) (h : hash) (stub : Stub) :
    (m.set h stub).len = if h ∈ m.keys then m.len else m.len + 1 := by
  have hk : (m.set h stub).len = (m.set h stub).keys.length := by
    simp [stubHashMap.len, stubHashMap.keys]
  have hm : m.len = m.keys.length := by simp [stubHashMap.len, stubHashMap.keys]
  have hl := length_filter_ne_of_nodup m.keys h m.nodupKeys
  rw [hk, keys_set, hm, List.length_cons]
  by_cases hmem : h ∈ m.keys
  · simp only [hmem, if_true] at hl ⊢
    omega
  · simp only [hmem, if_false] at hl ⊢
    omega

theorem mem_keys_set_self (m : stubHashMap) (h : hash) (stub : Stub) :
    h ∈ (m.set h stub).keys := by
  rw [keys_set]
  exact List.mem_cons_self _ _

/-! ## addStub on a valid stub -/

theorem sanitize_fields (r : StubRequest) :
    r.Sanitize.Method = r.Method ∧ r.Sanitize.Query = r.Query ∧ r.Sanitize.Body = r.Body := by
  unfold StubRequest.Sanitize
  split <;> exact ⟨rfl, rfl, rfl⟩

theorem addStub_of_valid (s : Server) (stub : Stub) (b : Value)
    (hv : stub.Request.Sanitize.Validate.len = 0 ∧ stub.Response.Validate.len = 0)
    (hb : compactStubBody stub.Request.Body = .ok b) :
    addStub s (some stub) =
      Run.ret ⟨some [],
        { s with stubs := (s.stubs.set (getHash { stub.Request.Sanitize with Body := b })
            (Stub.mk { stub.Request.Sanitize with Body := b } stub.Response)) },
        Stub.mk { stub.Request.Sanitize with Body := b } stub.Response⟩ := by
  have hlen : ¬ 0 < Slice.len (Stub.validationErrors
      { stub with Request := stub.Request.Sanitize }) := by
    rw [validationErrors_len]
    show ¬ 0 < stub.Request.Sanitize.Validate.len + stub.Response.Validate.len
    omega
  have hb' : compactStubBody stub.Request.Sanitize.Body = .ok b := by
    rw [(sanitize_fields stub.Request).2.2]; exact hb
  simp only [addStub]
  rw [if_neg hlen]
  simp only [hb']

theorem getHash_congr (r1 r2 : StubRequest) (hm : r1.Method = r2.Method)
    (hp : r1.Path = r2.Path) (hq : sortByKey r1.Query = sortByKey r2.Query)
    (hb : r1.Body = r2.Body) : getHash r1 = getHash r2 := by
  simp only [getHash, StubRequest.fmtV, fmtValues, hm, hp, hq, hb]

/-- C2 (as amended): for every registry and every two valid stubs with the same method, the
same sanitized path, the same query mapping (the same entries, listed by ascending key) and
the same body, a body that the compaction step of addStub accepts: addStub of the first and
then of the second both succeed, their fingerprints are equal, exactly one entry is under
that fingerprint, looking it up gives the response of the second, and the registry has grown
by one entry when the fingerprint was not a key before, and by none when it was. -/
theorem C2_second_add_overrides (s : Server) (s1 s2 : Stub)
    (hv1 : s1.Request.Sanitize.Validate.len = 0 ∧ s1.Response.Validate.len = 0)
    (hv2 : s2.Request.Sanitize.Validate.len = 0 ∧ s2.Response.Validate.len = 0)
    (hm : s1.Request.Method = s2.Request.Method)
    (hp : s1.Request.Sanitize.Path = s2.Request.Sanitize.Path)
    (hq : sortByKey s1.Request.Query = sortByKey s2.Request.Query)
    (hb : s1.Request.Body = s2.Request.Body)
    (hj : (compactStubBody s1.Request.Body).toBool = true) :
    ∃ r1 r2, addStub s (some s1) = Run.ret r1 ∧ addStub r1.server (some s2) = Run.ret r2
      ∧ r1.errs = some [] ∧ r2.errs = some []
      ∧ getHash r1.stub.Request = getHash r2.stub.Request
      ∧ r2.server.stubs.keys.count (getHash r2.stub.Request) = 1
      ∧ (r2.server.stubs.get (getHash r2.stub.Request)).map Stub.Response = some s2.Response
      ∧ r2.server.stubs.len =
          (if getHash r2.stub.Request ∈ s.stubs.keys then s.stubs.len else s.stubs.len + 1) := by
  obtain ⟨b, hb1⟩ : ∃ b, compactStubBody s1.Request.Body = .ok b := by
    cases hc : compactStubBody s1.Request.Body with
    | error e => rw [hc] at hj; exact absurd hj (by simp [Except.toBool])
    | ok b => exact ⟨b, rfl⟩
  have hb2 : compactStubBody s2.Request.Body = .ok b := hb ▸ hb1
  have hh : getHash { s1.Request.Sanitize with Body := b }
      = getHash { s2.Request.Sanitize with Body := b } := by
    have f1 := sanitize_fields s1.Request
    have f2 := sanitize_fields s2.Request
    apply getHash_congr
    · show s1.Request.Sanitize.Method = s2.Request.Sanitize.Method
      rw [f1.1, f2.1, hm]
    · exact hp
    · show sortByKey s1.Request.Sanitize.Query = sortByKey s2.Request.Sanitize.Query
      rw [f1.2.1, f2.2.1, hq]
    · rfl
  have a1 := addStub_of_valid s s1 b hv1 hb1
  refine ⟨_, _, a1, addStub_of_valid _ s2 b hv2 hb2, rfl, rfl, hh, ?_, ?_, ?_⟩
  · exact count_keys_set _ _ _
  · show Option.map Stub.Response (stubHashMap.get (stubHashMap.set _ _ _) _) = _
    rw [get_set_self]
    rfl
  · show stubHashMap.len (stubHashMap.set (stubHashMap.set s.stubs
        (getHash { s1.Request.Sanitize with Body := b }) _)
        (getHash { s2.Request.Sanitize with Body := b }) _) = _
    rw [hh, len_set, if_pos (mem_keys_set_self _ _ _), len_set]

/-- The instance of C2 at the stubs GET test?b=2&a=1 answering 200 and GET /test?a=1&b=2
answering 201, added to a new server. -/
theorem C2_witness :
    ∃ r1 r2, addStub NewServer (some stubFirst) = Run.ret r1
      ∧ addStub r1.server (some stubSecond) = Run.ret r2
      ∧ r1.errs = some [] ∧ r2.errs = some []
      ∧ getHash r1.stub.Request = getHash r2.stub.Request
      ∧ r2.server.stubs.keys.count (getHash r2.stub.Request) = 1
      ∧ (r2.server.stubs.get (getHash r2.stub.Request)).map Stub.Response
          = some stubSecond.Response
      ∧ r2.server.stubs.len =
          (if getHash r2.stub.Request ∈ NewServer.stubs.keys then NewServer.stubs.len
           else NewServer.stubs.len + 1) :=
  C2_second_add_overrides NewServer stubFirst stubSecond (by decide) (by decide) (by decide)
    (by decide) (by decide) rfl (by decide)

/-- C2 as stated fails at two inputs. With GET /test?a=1&b=2 already registered, adding two
valid stubs for that request that differ in their responses leaves the registry at one
entry: it does not grow. And two valid stubs whose common request body json.Marshal refuses
are not stored at all. -/
theorem C2_counterexample :
    ((addStubs NewServer [some stubOld]).toOption.map (fun s => s.stubs.len) = some 1
      ∧ stubFirst.Request.Sanitize.Validate = none ∧ stubFirst.Response.Validate = none
      ∧ stubSecond.Request.Sanitize.Validate = none ∧ stubSecond.Response.Validate = none
      ∧ stubFirst.Response.StatusCode ≠ stubSecond.Response.StatusCode
      ∧ (addStubs NewServer [some stubOld, some stubFirst, some stubSecond]).toOption.map
          (fun s => s.stubs.len) = some 1)
    ∧ (stubNaN.Request.Sanitize.Validate = none ∧ stubNaN.Response.Validate = none
      ∧ stubNaN2.Request.Sanitize.Validate = none ∧ stubNaN2.Response.Validate = none
      ∧ stubNaN.Response.StatusCode ≠ stubNaN2.Response.StatusCode
      ∧ (addStubs NewServer [some stubNaN, some stubNaN2]).toOption.map
          (fun s => s.stubs.len) = some 0) := by
  decide!

/-! ## The generic handler -/

theorem jsonCompact_empty : ∃ e, jsonCompact "" = .error e := ⟨_, rfl⟩

/-- Whatever the registry holds, a request with an empty body is answered 400: Compact
rejects the empty input before any lookup. -/
theorem genericStubHandler_empty_body (s : Server) (method path : String) (query : Values) :
    (genericStubHandler s newResponseWriter ⟨method, path, query, ⟨"", none⟩⟩).status = 400
    ∧ (genericStubHandler s newResponseWriter ⟨method, path, query, ⟨"", none⟩⟩).body = "" :=
  ⟨rfl, rfl⟩

/-- On a hit the status is 200 whatever the stub says, when its response body can be
encoded. -/
theorem genericStubHandler_hit_status (s : Server) (r : Request) (c : String) (stub : Stub)
    (hread : r.Body.err = none) (hjson : jsonCompact r.Body.data = .ok c)
    (hhit : s.stubs.get (getHash ⟨r.Method, r.Path, r.Query, Value.str c⟩) = some stub)
    (hbody : (jsonMarshal stub.Response.Body).toBool = true) :
    (genericStubHandler s newResponseWriter r).status = 200 := by
  obtain ⟨b, hb⟩ : ∃ b, jsonMarshal stub.Response.Body = .ok b := by
    cases hc : jsonMarshal stub.Response.Body with
    | error e => rw [hc] at hbody; exact absurd hbody (by simp [Except.toBool])
    | ok b => exact ⟨b, rfl⟩
  simp only [genericStubHandler, ioReadAll, hread, hjson, hhit, hb]
  split_ifs <;> rfl

/-- C3 at its own example: the stub GET test with no body answering 200 is accepted and
stored under the fingerprint of the text \x7bGET /test map[] <nil>\x7d; dispatching GET /test
with an empty body answers 400 with an empty body, not the stub. The request the handler
would look up for an empty compacted body prints without the <nil>, so its fingerprint is
another one. -/
theorem C3_no_body_request_gets_400 :
    (addStub NewServer (some stubNoBody)).toOption.map
        (fun r => (r.errs, r.server.stubs.keys, r.stub.Request.fmtV))
      = some (some [], ["cf31ce76c1b07cfaecef83c3feb6c04dd2c98f4f2aa33375c7b7a7d2a90424da"],
          "\x7bGET /test map[] <nil>\x7d")
    ∧ (addStub NewServer (some stubNoBody)).toOption.map
        (fun r => ((genericStubHandler r.server newResponseWriter requestNoBody).status,
          (genericStubHandler r.server newResponseWriter requestNoBody).body))
      = some (400, "")
    ∧ (StubRequest.mk "GET" "/test" [] (Value.str "")).fmtV = "\x7bGET /test map[] \x7d"
    ∧ getHash (StubRequest.mk "GET" "/test" [] (Value.str ""))
      ≠ "cf31ce76c1b07cfaecef83c3feb6c04dd2c98f4f2aa33375c7b7a7d2a90424da" := by
  decide!

theorem get_of_len_zero (m : stubHashMap) (h : hash) (hz : m.len = 0) : m.get h = none := by
  have he : m.entries = [] := List.length_eq_zero.1 hz
  simp only [stubHashMap.get, he, List.find?_nil, Option.map_none']

/-- A request whose body is read without error and is one well-formed JSON value, and whose
fingerprint is not a key of the registry, is answered 404 with an empty body. -/
theorem genericStubHandler_miss (s : Server) (r : Request) (c : String)
    (hread : r.Body.err = none) (hjson : jsonCompact r.Body.data = .ok c)
    (hmiss : s.stubs.get (getHash ⟨r.Method, r.Path, r.Query, Value.str c⟩) = none) :
    (genericStubHandler s newResponseWriter r).status = 404
    ∧ (genericStubHandler s newResponseWriter r).body = "" := by
  simp only [genericStubHandler, ioReadAll, hread, hjson, hmiss]
  exact ⟨rfl, rfl⟩

/-- Against an empty registry every request whose body is read without error and is one
well-formed JSON value is answered 404 with an empty body. -/
theorem genericStubHandler_empty_registry (s : Server) (r : Request) (c : String)
    (hempty : s.stubs.len = 0)
    (hread : r.Body.err = none) (hjson : jsonCompact r.Body.data = .ok c) :
    (genericStubHandler s newResponseWriter r).status = 404
    ∧ (genericStubHandler s newResponseWriter r).body = "" :=
  genericStubHandler_miss s r c hread hjson (get_of_len_zero _ _ hempty)

/-- A body that is not JSON is answered 400 by the guard on the result of Compact. -/
theorem genericStubHandler_malformed_body :
    (genericStubHandler NewServer newResponseWriter requestMalformed).status = 400
    ∧ (genericStubHandler NewServer newResponseWriter requestMalformed).body = "" := by
  decide

/-- C4 at its own example: the registry of a new server is empty, so GET /unknown with no
body matches no stub; the handler answers it 400 with an empty body, not 404. The same
request carrying the JSON value null as body is answered 404 with an empty body. -/
theorem C4_no_body_miss_gets_400 :
    NewServer.stubs.len = 0 ∧ NewServer.stubs.keys = []
    ∧ (genericStubHandler NewServer newResponseWriter requestUnknownNoBody).status = 400
    ∧ (genericStubHandler NewServer newResponseWriter requestUnknownNoBody).status ≠ 404
    ∧ (genericStubHandler NewServer newResponseWriter requestUnknownNoBody).body = ""
    ∧ (genericStubHandler NewServer newResponseWriter requestUnknown).status = 404
    ∧ (genericStubHandler NewServer newResponseWriter requestUnknown).body = "" := by
  decide

/-- C5 at two stubs whose request bodies are the JSON document \x7b"a":1\x7d held in a
string, once without and once with a space after the colon: Compact maps the two texts to
the same text, both stubs are valid and accepted, and they are stored under two
fingerprints. -/
theorem C5_spaced_body_other_fingerprint :
    (jsonCompact "\x7b\"a\":1\x7d").toOption = some "\x7b\"a\":1\x7d"
    ∧ (jsonCompact "\x7b\"a\": 1\x7d").toOption = some "\x7b\"a\":1\x7d"
    ∧ (addStub NewServer (some stubTight)).toOption.map (fun r => (r.errs, r.stub.Request.fmtV))
      = some (some [], "\x7bGET /test map[] \"\x7b\\\"a\\\":1\x7d\"\x7d")
    ∧ (addStub NewServer (some stubSpaced)).toOption.map (fun r => (r.errs, r.stub.Request.fmtV))
      = some (some [], "\x7bGET /test map[] \"\x7b\\\"a\\\": 1\x7d\"\x7d")
    ∧ (addStub NewServer (some stubTight)).toOption.map (fun r => getHash r.stub.Request)
      ≠ (addStub NewServer (some stubSpaced)).toOption.map (fun r => getHash r.stub.Request)
    ∧ (addStubs NewServer [some stubTight, some stubSpaced]).toOption.map
        (fun s => s.stubs.len) = some 2 := by
  decide!

/-- C6 at a stub answering 201: the stub is accepted, the request POST /items?id=1 with the
body of the stub hits it, the body and the headers of the stub are written, and the status
the client receives is 200, not 201. -/
theorem C6_status_of_hit_is_200 :
    (addStub NewServer (some stubCreated)).toOption.map (fun r => (r.errs, r.server.stubs.len))
      = some (some [], 1)
    ∧ (addStub NewServer (some stubCreated)).toOption.map
        (fun r => ((genericStubHandler r.server newResponseWriter requestCreated).body,
          (genericStubHandler r.server newResponseWriter requestCreated).sent.map Prod.snd))
      = some ("\"created\"", some [("X-Test", ["t"]), ("Content-Type", ["application/json"])])
    ∧ (addStub NewServer (some stubCreated)).toOption.map
        (fun r => (r.stub.Response.StatusCode,
          (genericStubHandler r.server newResponseWriter requestCreated).status))
      = some (201, 200) := by
  decide!

/-! ## The add handler -/

/-- C7 at the empty body: when `yaml.Unmarshal` leaves the stub nil without an error on the
empty input, getStubFromBytes returns no stub and no error, and a POST with an empty body
makes addStubHandler panic in addStub: no status is written. -/
theorem C7_empty_body_panics (yamlUnmarshal : String → Except Error (Option Stub))
    (s : Server) (w : ResponseWriter) (path : String) (query : Values)
    (hempty : yamlUnmarshal "" = .ok none) :
    getStubFromBytes yamlUnmarshal "" = (none, none)
    ∧ addStubHandler yamlUnmarshal s w ⟨"POST", path, query, ⟨"", none⟩⟩ = Run.panicked := by
  have hg : getStubFromBytes yamlUnmarshal "" = (none, none) := by
    simp only [getStubFromBytes, hempty]
  refine ⟨hg, ?_⟩
  have hp : ¬ ("POST" ≠ "POST") := by decide
  simp only [addStubHandler, ioReadAll, Option.getD, hg, addStub]
  rw [if_neg hp]

theorem addStub_some_returns (s : Server) (stub : Stub) :
    ∃ r, addStub s (some stub) = Run.ret r := by
  simp only [addStub]
  split
  · exact ⟨_, rfl⟩
  · split <;> exact ⟨_, rfl⟩

/-- Every POST ends in one of three ways: 201, 400, or, exactly when the body is read and
decodes to no stub without an error, a panic. -/
theorem addStubHandler_post_outcomes (yamlUnmarshal : String → Except Error (Option Stub))
    (s : Server) (r : Request) (hpost : r.Method = "POST") :
    (addStubHandler yamlUnmarshal s newResponseWriter r = Run.panicked
      ∧ r.Body.err = none ∧ yamlUnmarshal r.Body.data = .ok none)
    ∨ ∃ s' w', addStubHandler yamlUnmarshal s newResponseWriter r = Run.ret (s', w')
        ∧ (w'.status = 201 ∨ w'.status = 400) := by
  obtain ⟨method, path, query, ⟨data, err⟩⟩ := r
  have hp : ¬ (method ≠ "POST") := not_not.2 hpost
  simp only [addStubHandler, ioReadAll, Option.getD, getStubFromBytes]
  rw [if_neg hp]
  cases err with
  | some e => exact Or.inr ⟨_, _, rfl, Or.inr rfl⟩
  | none =>
    dsimp only
    cases hy : yamlUnmarshal data with
    | error e => exact Or.inr ⟨_, _, rfl, Or.inr rfl⟩
    | ok st =>
      cases st with
      | none => exact Or.inl ⟨rfl, rfl, rfl⟩
      | some stub =>
        obtain ⟨a, ha⟩ := addStub_some_returns s stub
        dsimp only
        rw [ha]
        dsimp only
        by_cases hl : 0 < a.errs.len
        · rw [if_pos hl]; exact Or.inr ⟨_, _, rfl, Or.inr rfl⟩
        · rw [if_neg hl]; exact Or.inr ⟨_, _, rfl, Or.inl rfl⟩

/-- The instance of C7 at a new server, with the results of `yaml.Unmarshal` the test
records. -/
theorem C7_witness :
    yamlUnmarshalTable "" = .ok none
    ∧ getStubFromBytes yamlUnmarshalTable "" = (none, none)
    ∧ addStubHandler yamlUnmarshalTable NewServer newResponseWriter
        ⟨"POST", "/httpmock/add", [], ⟨"", none⟩⟩ = Run.panicked :=
  ⟨rfl, C7_empty_body_panics yamlUnmarshalTable NewServer newResponseWriter
    "/httpmock/add" [] rfl⟩

/-! ## Sanitize -/

theorem head_slash_iff (p : String) :
    p.data.head? = some '/' ↔ ∃ rest : String, p = "/" ++ rest := by
  constructor
  · intro h
    cases hd : p.data with
    | nil => rw [hd] at h; exact absurd h (by simp)
    | cons c cs =>
      rw [hd] at h
      have hc : c = '/' := by simpa using h
      refine ⟨String.mk cs, ?_⟩
      apply String.ext
      rw [hd, hc, String.data_append]
      rfl
  · rintro ⟨rest, rfl⟩
    rw [String.data_append]
    rfl

theorem sanitize_idem (r : StubRequest) : r.Sanitize.Sanitize = r.Sanitize := by
  by_cases h : r.Path ≠ "" ∧ r.Path.data.head? ≠ some '/'
  · have h1 : r.Sanitize = { r with Path := "/" ++ r.Path } := by
      unfold StubRequest.Sanitize
      rw [if_pos h]
    have h2 : ¬ (("/" ++ r.Path) ≠ "" ∧ ("/" ++ r.Path).data.head? ≠ some '/') := by
      intro hc
      exact hc.2 ((head_slash_iff _).2 ⟨r.Path, rfl⟩)
    rw [h1]
    unfold StubRequest.Sanitize
    rw [if_neg h2]
  · have h1 : r.Sanitize = r := by
      unfold StubRequest.Sanitize
      rw [if_neg h]
    rw [h1, h1]

/-- C11: Sanitize puts a slash before a path that is not empty and does not start with a
slash (test becomes /test), leaves every other path as it is, changes no other field, and
applying it twice gives what applying it once gives. -/
theorem C11_sanitize (r : StubRequest) :
    ((r.Path ≠ "" ∧ ∀ rest : String, r.Path ≠ "/" ++ rest) → r.Sanitize.Path = "/" ++ r.Path)
    ∧ ((r.Path = "" ∨ ∃ rest : String, r.Path = "/" ++ rest) → r.Sanitize.Path = r.Path)
    ∧ r.Sanitize.Method = r.Method ∧ r.Sanitize.Query = r.Query ∧ r.Sanitize.Body = r.Body
    ∧ r.Sanitize.Sanitize = r.Sanitize
    ∧ ({ r with Path := "test" } : StubRequest).Sanitize.Path = "/test"
    ∧ ({ r with Path := "/test" } : StubRequest).Sanitize.Path = "/test" := by
  refine ⟨?_, ?_, (sanitize_fields r).1, (sanitize_fields r).2.1, (sanitize_fields r).2.2,
    sanitize_idem r, ?_, ?_⟩
  · rintro ⟨hne, hns⟩
    have hh : r.Path.data.head? ≠ some '/' := fun e =>
      let ⟨rest, hr⟩ := (head_slash_iff _).1 e
      hns rest hr
    unfold StubRequest.Sanitize
    rw [if_pos ⟨hne, hh⟩]
  · intro h
    have hc : ¬ (r.Path ≠ "" ∧ r.Path.data.head? ≠ some '/') := by
      rintro ⟨hne, hh⟩
      rcases h with h | h
      · exact hne h
      · exact hh ((head_slash_iff _).2 h)
    unfold StubRequest.Sanitize
    rw [if_neg hc]
  · have hc : ("test" : String) ≠ "" ∧ ("test" : String).data.head? ≠ some '/' := by decide
    unfold StubRequest.Sanitize
    rw [if_pos hc]
    rfl
  · have hc : ¬ (("/test" : String) ≠ "" ∧ ("/test" : String).data.head? ≠ some '/') := by
      decide
    unfold StubRequest.Sanitize
    rw [if_neg hc]

/-! ## The fingerprint -/

theorem length_hex32 (w : Nat) : (hex32 w).length = 8 := by
  simp only [hex32, List.length_map, List.length_range]

theorem hexDigit_mem (n : Nat) (h : n < 16) : hexDigit n ∈ "0123456789abcdef".data := by
  interval_cases n <;> decide

theorem mem_hex32 (w : Nat) (c : Char) (h : c ∈ hex32 w) : c ∈ "0123456789abcdef".data := by
  simp only [hex32, List.mem_map] at h
  obtain ⟨i, _, rfl⟩ := h
  exact hexDigit_mem _ (Nat.mod_lt _ (by decide))

theorem sha256Hex_words (msg : List Nat) :
    ∃ ws : List Nat, ws.length = 8 ∧ sha256Hex msg = String.mk (ws.flatMap hex32) := by
  refine ⟨_, ?len, rfl⟩
  rfl

theorem length_flatMap_hex32 (ws : List Nat) : (ws.flatMap hex32).length = 8 * ws.length := by
  induction ws with
  | nil => rfl
  | cons w ws ih =>
    rw [List.flatMap_cons, List.length_append, length_hex32, ih, List.length_cons]
    omega

/-! ### The bytes of a text -/

theorem u8_mask (x m k : Nat) :
    ((UInt8.ofNat x &&& UInt8.ofNat m) ||| UInt8.ofNat k).toNat
      = ((x % 256) &&& (m % 256)) ||| (k % 256) := by
  show (((BitVec.ofNat 8 x) &&& (BitVec.ofNat 8 m)) ||| (BitVec.ofNat 8 k)).toNat = _
  simp [BitVec.toNat_or, BitVec.toNat_and, BitVec.toNat_ofNat]

theorem u32_shr (v : UInt32) (k : Nat) (hk : k < 32) :
    (v >>> (UInt32.ofNat k)).toNat = v.toNat / 2 ^ k := by
  show (v.toBitVec >>> ((UInt32.ofNat k).mod 32).toBitVec).toNat = _
  have : ((UInt32.ofNat k).mod 32).toBitVec.toNat = k := by
    show ((BitVec.ofNat 32 k) % (BitVec.ofNat 32 32)).toNat = k
    simp [BitVec.toNat_umod, BitVec.toNat_ofNat]
    omega
  rw [BitVec.ushiftRight_eq', BitVec.toNat_ushiftRight, this, Nat.shiftRight_eq_div_pow]
  rfl

theorem or_small : (∀ y, y < 64 → y ||| 128 = 128 + y) ∧ (∀ y, y < 32 → y ||| 192 = 192 + y)
    ∧ (∀ y, y < 16 → y ||| 224 = 224 + y) ∧ (∀ y, y < 8 → y ||| 240 = 240 + y) := by
  decide

theorem mask_byte (x bits lead : Nat)
    (hor : ∀ y, y < 2 ^ bits → y ||| lead = lead + y) :
    ((x % 256) &&& (2 ^ bits - 1)) ||| lead = lead + x % 256 % 2 ^ bits := by
  rw [Nat.and_pow_two_sub_one_eq_mod, hor _ (Nat.mod_lt _ (Nat.two_pow_pos bits))]

theorem byte_of (v : UInt32) (k bits lead : Nat) (hk : k < 32) (hb : 2 ^ bits - 1 < 256)
    (hl : lead < 256) (hor : ∀ y, y < 2 ^ bits → y ||| lead = lead + y) :
    ((UInt8.ofNat (v >>> UInt32.ofNat k).toNat &&& UInt8.ofNat (2 ^ bits - 1))
        ||| UInt8.ofNat lead).toNat
      = lead + v.toNat / 2 ^ k % 256 % 2 ^ bits := by
  rw [u8_mask, u32_shr v k hk, Nat.mod_eq_of_lt hb, Nat.mod_eq_of_lt hl, mask_byte _ _ _ hor]

theorem last_byte (v : UInt32) :
    ((UInt8.ofNat v.toNat &&& UInt8.ofNat 63) ||| UInt8.ofNat 128).toNat
      = 128 + v.toNat % 64 := by
  have h := mask_byte v.toNat 6 128 or_small.1
  rw [u8_mask]
  have e : (63 : Nat) % 256 = 2 ^ 6 - 1 := rfl
  have e2 : (128 : Nat) % 256 = 128 := rfl
  rw [e, e2, h]
  have : v.toNat % 256 % 2 ^ 6 = v.toNat % 64 := by
    show v.toNat % 256 % 64 = v.toNat % 64
    omega
  rw [this]

theorem utf8Char_eq_core (c : Char) :
    utf8Char c = (String.utf8EncodeChar c).map UInt8.toNat := by
  have hlt : c.val.toNat < 1114112 := by
    have := c.valid
    simp only [Nat.isValidChar] at this
    omega
  have hn : c.toNat = c.val.toNat := rfl
  have b6 := byte_of c.val 6
  have b12 := byte_of c.val 12
  have b18 := byte_of c.val 18
  have bl := last_byte c.val
  unfold utf8Char String.utf8EncodeChar
  simp only [hn]
  by_cases h1 : c.val.toNat < 128
  · have h1' : c.val ≤ 0x7f := by show c.val.toNat ≤ 127; omega
    rw [if_pos h1, if_pos h1']
    show [c.val.toNat] = [(UInt8.ofNat c.val.toNat).toNat]
    have : (UInt8.ofNat c.val.toNat).toNat = c.val.toNat % 256 := by
      show (BitVec.ofNat 8 c.val.toNat).toNat = _
      simp [BitVec.toNat_ofNat]
    rw [this]
    congr 1
    omega
  · have h1' : ¬ c.val ≤ 0x7f := by show ¬ c.val.toNat ≤ 127; omega
    rw [if_neg h1, if_neg h1']
    by_cases h2 : c.val.toNat < 2048
    · have h2' : c.val ≤ 0x7ff := by show c.val.toNat ≤ 2047; omega
      rw [if_pos h2, if_pos h2']
      have e1 := b6 5 192 (by decide) (by decide) (by decide) or_small.2.1
      show _ = [_, _]
      rw [show ((c.val >>> 6).toUInt8 &&& 0x1f ||| 0xc0).toNat = _ from e1,
        show (c.val.toUInt8 &&& 0x3f ||| 0x80).toNat = _ from bl]
      have a1 : 192 + c.val.toNat / 2 ^ 6 % 256 % 2 ^ 5 = 192 + c.val.toNat / 64 := by
        omega
      rw [a1]
    · have h2' : ¬ c.val ≤ 0x7ff := by show ¬ c.val.toNat ≤ 2047; omega
      rw [if_neg h2, if_neg h2']
      by_cases h3 : c.val.toNat < 65536
      · have h3' : c.val ≤ 0xffff := by show c.val.toNat ≤ 65535; omega
        rw [if_pos h3, if_pos h3']
        have e1 := b12 4 224 (by decide) (by decide) (by decide) or_small.2.2.1
        have e2 := b6 6 128 (by decide) (by decide) (by decide) or_small.1
        show _ = [_, _, _]
        rw [show ((c.val >>> 12).toUInt8 &&& 0x0f ||| 0xe0).toNat = _ from e1,
          show ((c.val >>> 6).toUInt8 &&& 0x3f ||| 0x80).toNat = _ from e2,
          show (c.val.toUInt8 &&& 0x3f ||| 0x80).toNat = _ from bl]
        have a1 : 224 + c.val.toNat / 2 ^ 12 % 256 % 2 ^ 4 = 224 + c.val.toNat / 4096 := by
          omega
        have a2 : 128 + c.val.toNat / 2 ^ 6 % 256 % 2 ^ 6 = 128 + c.val.toNat / 64 % 64 := by
          omega
        rw [a1, a2]
      · have h3' : ¬ c.val ≤ 0xffff := by show ¬ c.val.toNat ≤ 65535; omega
        rw [if_neg h3, if_neg h3']
        have e0 := b18 3 240 (by decide) (by decide) (by decide) or_small.2.2.2
        have e1 := b12 6 128 (by decide) (by decide) (by decide) or_small.1
        have e2 := b6 6 128 (by decide) (by decide) (by decide) or_small.1
        show _ = [_, _, _, _]
        rw [show ((c.val >>> 18).toUInt8 &&& 0x07 ||| 0xf0).toNat = _ from e0,
          show ((c.val >>> 12).toUInt8 &&& 0x3f ||| 0x80).toNat = _ from e1,
          show ((c.val >>> 6).toUInt8 &&& 0x3f ||| 0x80).toNat = _ from e2,
          show (c.val.toUInt8 &&& 0x3f ||| 0x80).toNat = _ from bl]
        have a0 : 240 + c.val.toNat / 2 ^ 18 % 256 % 2 ^ 3 = 240 + c.val.toNat / 262144 := by
          omega
        have a1 : 128 + c.val.toNat / 2 ^ 12 % 256 % 2 ^ 6
            = 128 + c.val.toNat / 4096 % 64 := by
          omega
        have a2 : 128 + c.val.toNat / 2 ^ 6 % 256 % 2 ^ 6 = 128 + c.val.toNat / 64 % 64 := by
          omega
        rw [a0, a1, a2]

/-- The bytes that are hashed are the UTF-8 encoding of the text. -/
theorem utf8_eq_toUTF8 (s : String) :
    utf8 s = s.toUTF8.data.toList.map UInt8.toNat := by
  show s.data.flatMap utf8Char = (s.data.flatMap String.utf8EncodeChar).map UInt8.toNat
  induction s.data with
  | nil => rfl
  | cons c cs ih =>
    rw [List.flatMap_cons, List.flatMap_cons, List.map_append, ← ih, utf8Char_eq_core]

/-! ### The order of the keys -/

theorem lessBytes_iff_lex (a b : List Nat) :
    lessBytes a b = true ↔ List.Lex (· < ·) a b := by
  induction a generalizing b with
  | nil =>
    cases b with
    | nil => simp [lessBytes]
    | cons y ys => simp [lessBytes, List.Lex.nil]
  | cons x xs ih =>
    cases b with
    | nil => simp [lessBytes]
    | cons y ys =>
      simp only [lessBytes, Bool.or_eq_true, Bool.and_eq_true, decide_eq_true_eq, ih]
      constructor
      · rintro (h | ⟨h, hl⟩)
        · exact List.Lex.rel h
        · subst h
          exact List.Lex.cons hl
      · intro h
        cases h with
        | rel h => exact Or.inl h
        | cons h => exact Or.inr ⟨rfl, h⟩

theorem mem_insertByKey {β : Type} (e y : String × β) (l : List (String × β))
    (h : y ∈ insertByKey e l) : y = e ∨ y ∈ l := by
  induction l with
  | nil => simpa [insertByKey] using h
  | cons x xs ih =>
    simp only [insertByKey] at h
    split at h
    · rcases List.mem_cons.1 h with h | h
      · exact Or.inr (h ▸ List.mem_cons_self _ _)
      · rcases ih h with h | h
        · exact Or.inl h
        · exact Or.inr (List.mem_cons_of_mem _ h)
    · rcases List.mem_cons.1 h with h | h
      · exact Or.inl h
      · exact Or.inr h

theorem insertByKey_perm {β : Type} (e : String × β) (l : List (String × β)) :
    (insertByKey e l).Perm (e :: l) := by
  induction l with
  | nil => exact List.Perm.refl _
  | cons x xs ih =>
    simp only [insertByKey]
    split
    · exact ((List.Perm.cons x ih).trans (List.Perm.swap e x xs))
    · exact List.Perm.refl _

theorem sortByKey_perm {β : Type} (l : List (String × β)) : (sortByKey l).Perm l := by
  induction l with
  | nil => exact List.Perm.refl _
  | cons x xs ih =>
    show (insertByKey x (sortByKey xs)).Perm (x :: xs)
    exact (insertByKey_perm x _).trans (List.Perm.cons x ih)

theorem insertByKey_sorted {β : Type} (e : String × β) (l : List (String × β))
    (h : l.Pairwise (fun a b => ¬ List.Lex (· < ·) (utf8 b.1) (utf8 a.1))) :
    (insertByKey e l).Pairwise (fun a b => ¬ List.Lex (· < ·) (utf8 b.1) (utf8 a.1)) := by
  induction l with
  | nil => simp [insertByKey]
  | cons x xs ih =>
    obtain ⟨hx, hxs⟩ := List.pairwise_cons.1 h
    simp only [insertByKey]
    by_cases hlt : stringLess x.1 e.1 = true
    · rw [if_pos hlt]
      have hlex : List.Lex (· < ·) (utf8 x.1) (utf8 e.1) := (lessBytes_iff_lex _ _).1 hlt
      refine List.pairwise_cons.2 ⟨?_, ih hxs⟩
      intro y hy
      rcases mem_insertByKey e y xs hy with hy | hy
      · rw [hy]
        exact fun hc => @IsAsymm.asymm _ (List.Lex (· < ·)) _ _ _ hlex hc
      · exact hx y hy
    · rw [if_neg hlt]
      have hnlex : ¬ List.Lex (· < ·) (utf8 x.1) (utf8 e.1) :=
        fun hc => hlt ((lessBytes_iff_lex _ _).2 hc)
      refine List.pairwise_cons.2 ⟨?_, h⟩
      intro y hy
      rcases List.mem_cons.1 hy with hy | hy
      · rw [hy]; exact hnlex
      · intro hc
        rcases @IsOrderConnected.conn _ (List.Lex (· < ·)) _ _ (utf8 x.1) _ hc with h1 | h1
        · exact hx y hy h1
        · exact hnlex h1

theorem sortByKey_sorted {β : Type} (l : List (String × β)) :
    (sortByKey l).Pairwise (fun a b => ¬ List.Lex (· < ·) (utf8 b.1) (utf8 a.1)) := by
  induction l with
  | nil => exact List.Pairwise.nil
  | cons x xs ih => exact insertByKey_sorted x _ ih

theorem fmtElems_eq_map (xs : List Value) : fmtElems xs = xs.map fmtValue := by
  induction xs with
  | nil => rfl
  | cons v vs ih => rw [fmtElems, ih, List.map_cons]

theorem fmtFields_eq_map (kvs : List (String × Value)) :
    fmtFields kvs = kvs.map (fun kv => (kv.1, fmtValue kv.2)) := by
  induction kvs with
  | nil => rfl
  | cons kv kvs ih =>
    obtain ⟨k, v⟩ := kv
    rw [fmtFields, ih, List.map_cons]

theorem addStub_get_test_key (s : Server) (resp : StubResponse)
    (hv : resp.Validate.len = 0) :
    ∃ a, addStub s (some ⟨⟨"GET", "/test", [], Value.null⟩, resp⟩) = Run.ret a
      ∧ a.errs = some []
      ∧ a.server.stubs.get "cf31ce76c1b07cfaecef83c3feb6c04dd2c98f4f2aa33375c7b7a7d2a90424da"
        = some ⟨⟨"GET", "/test", [], Value.null⟩, resp⟩ := by
  have hk : getHash ⟨"GET", "/test", [], Value.null⟩
      = "cf31ce76c1b07cfaecef83c3feb6c04dd2c98f4f2aa33375c7b7a7d2a90424da" := by decide!
  have hreq : (StubRequest.mk "GET" "/test" [] Value.null).Sanitize
      = ⟨"GET", "/test", [], Value.null⟩ := by
    unfold StubRequest.Sanitize
    rw [if_neg (by decide)]
  have hval : (StubRequest.mk "GET" "/test" [] Value.null).Sanitize.Validate.len = 0 := by
    decide
  have a1 := addStub_of_valid s ⟨⟨"GET", "/test", [], Value.null⟩, resp⟩ Value.null
    ⟨hval, hv⟩ rfl
  refine ⟨_, a1, rfl, ?_⟩
  show stubHashMap.get (stubHashMap.set _ _ _) _ = _
  simp only [hreq, hk]
  exact get_set_self _ _ _

/-- C12: getHash of a request is asSha256 of its `%v` text: the braces around the method, the
path, the query as `map[k:[v1 v2] ...]` with the keys ascending by their bytes, and the body
(`<nil>` when absent, the string itself for a string), separated by spaces. asSha256 is the
SHA-256 model on the UTF-8 bytes of that text and gives sixty-four lower-case hexadecimal
digits; it reproduces the four digests of Test_asSha256 and a digest of a two-block text with
characters of every length. For GET /test with no query and no body the text is
\x7bGET /test map[] <nil>\x7d and the digest cf31ce76...24da, the key under which addStub
stores such a stub in every registry, the stub of TestNewServerWithConfig among them. -/
theorem C12_getHash_pinned (r : StubRequest) :
    getHash r = asSha256 r.fmtV
    ∧ r.fmtV = "\x7b" ++ r.Method ++ " " ++ r.Path ++ " "
        ++ ("map[" ++ " ".intercalate ((sortByKey r.Query).map
              (fun kv => kv.1 ++ ":" ++ ("[" ++ " ".intercalate kv.2 ++ "]"))) ++ "]")
        ++ " " ++ fmtValue r.Body ++ "\x7d"
    ∧ (sortByKey r.Query).Perm r.Query
    ∧ (sortByKey r.Query).Pairwise (fun a b => ¬ List.Lex (· < ·) (utf8 b.1) (utf8 a.1))
    ∧ (fmtValue Value.null = "<nil>" ∧ (∀ t, fmtValue (Value.str t) = t)
      ∧ (∀ b, fmtValue (Value.bool b) = if b then "true" else "false")
      ∧ (∀ n : Int, fmtValue (Value.int n) = toString n)
      ∧ (∀ t, fmtValue (Value.unsupported t) = t)
      ∧ (∀ xs, fmtValue (Value.arr xs) = "[" ++ " ".intercalate (xs.map fmtValue) ++ "]")
      ∧ (∀ kvs, fmtValue (Value.obj kvs) = "map[" ++ " ".intercalate
          ((sortByKey (kvs.map (fun kv => (kv.1, fmtValue kv.2)))).map
            (fun kv => kv.1 ++ ":" ++ kv.2)) ++ "]"))
    ∧ asSha256 r.fmtV = sha256Hex (r.fmtV.toUTF8.data.toList.map UInt8.toNat)
    ∧ (getHash r).length = 64
    ∧ (∀ c ∈ (getHash r).data, c ∈ "0123456789abcdef".data)
    ∧ (asSha256 "test" = "9f86d081884c7d659a2feaa0c55ad015a3bf4f1b2b0b822cd15d6c15b0f00a08"
      ∧ asSha256 "" = "e3b0c44298fc1c149afbf4c8996fb92427ae41e4649b934ca495991b7852b855"
      ∧ getHash (StubRequest.mk "" "" [] Value.null)
        = "aa2cf3db9ede69e284d3e1ba44c66bd54e7c6c23340fefcd2306cee3413e94f8"
      ∧ requestLong.fmtV = "\x7bPOST /café/€/😀 map[a:[1] b:[2 3]] héllo wörld, a body long enough to fill more than one block\x7d"
      ∧ getHash requestLong
        = "506032085eb6204d26c26201efef2eef29127bb45da8d54dbb6f6b30f0aebcde")
    ∧ (StubRequest.mk "GET" "/test" [] Value.null).fmtV = "\x7bGET /test map[] <nil>\x7d"
    ∧ getHash (StubRequest.mk "GET" "/test" [] Value.null)
      = "cf31ce76c1b07cfaecef83c3feb6c04dd2c98f4f2aa33375c7b7a7d2a90424da"
    ∧ (∀ (s : Server) (resp : StubResponse), resp.Validate.len = 0 →
        ∃ a, addStub s (some ⟨⟨"GET", "/test", [], Value.null⟩, resp⟩) = Run.ret a
          ∧ a.errs = some []
          ∧ a.server.stubs.get
              "cf31ce76c1b07cfaecef83c3feb6c04dd2c98f4f2aa33375c7b7a7d2a90424da"
            = some ⟨⟨"GET", "/test", [], Value.null⟩, resp⟩)
    ∧ (addStub NewServer (some stubTest)).toOption.map
        (fun a => (a.errs, a.server.stubs.keys))
      = some (some [], ["cf31ce76c1b07cfaecef83c3feb6c04dd2c98f4f2aa33375c7b7a7d2a90424da"]) := by
  obtain ⟨ws, hl, hw⟩ := sha256Hex_words (utf8 r.fmtV)
  have hg : getHash r = String.mk (ws.flatMap hex32) := hw
  refine ⟨rfl, rfl, sortByKey_perm _, sortByKey_sorted _,
    ⟨rfl, fun _ => rfl, fun _ => rfl, fun _ => rfl, fun _ => rfl, ?_, ?_⟩,
    ?_, ?_, ?_, by decide!, by decide, by decide!, addStub_get_test_key, by decide!⟩
  · intro xs
    show "[" ++ " ".intercalate (fmtElems xs) ++ "]" = _
    rw [fmtElems_eq_map]
  · intro kvs
    show "map[" ++ " ".intercalate ((sortByKey (fmtFields kvs)).map
      (fun kv => kv.1 ++ ":" ++ kv.2)) ++ "]" = _
    rw [fmtFields_eq_map]
  · show sha256Hex (utf8 r.fmtV) = _
    rw [utf8_eq_toUTF8]
  · rw [hg, String.length_mk, length_flatMap_hex32, hl]
  · intro c hc
    rw [hg] at hc
    obtain ⟨w, _, hcw⟩ := List.mem_flatMap.1 hc
    exact mem_hex32 w c hcw

/-! ## Two requests, one hashed text -/

/-- C13 at its own example: the requests POST /search with a = [`1 2`] and with
a = [`1`, `2`] have valid methods and different query mappings, and the text that is hashed
is the same for both, so is the fingerprint; a stub registered for the first is the answer
to an inbound request with the second. -/
theorem C13_two_queries_one_text :
    requestOneValue.Validate = none ∧ requestTwoValues.Validate = none
    ∧ requestOneValue.Query ≠ requestTwoValues.Query
    ∧ sortByKey requestOneValue.Query ≠ sortByKey requestTwoValues.Query
    ∧ requestOneValue.fmtV = "\x7bPOST /search map[a:[1 2]] \x7b\"k\":1\x7d\x7d"
    ∧ requestTwoValues.fmtV = "\x7bPOST /search map[a:[1 2]] \x7b\"k\":1\x7d\x7d"
    ∧ utf8 requestOneValue.fmtV = utf8 requestTwoValues.fmtV
    ∧ getHash requestOneValue = getHash requestTwoValues
    ∧ (addStub NewServer (some stubOneValue)).toOption.map
        (fun a => (a.errs, a.stub.Request.Query,
          (genericStubHandler a.server newResponseWriter inboundTwoValues).status,
          (genericStubHandler a.server newResponseWriter inboundTwoValues).body))
      = some (some [], [("a", ["1 2"])], 200, "\"one value\"") := by
  decide!

/-! ## Adding a stub again -/

theorem keys_set_set (m : stubHashMap) (h : hash) (a b : Stub) :
    ((m.set h a).set h b).keys = (m.set h a).keys := by
  rw [keys_set, keys_set]
  have h1 : decide (h ≠ h) = false := decide_eq_false (not_not.2 rfl)
  rw [List.filter_cons]
  simp only [h1, Bool.false_eq_true, if_false, List.filter_filter, Bool.and_self]

/-- For a valid stub with no request body the second addStub stores under the fingerprint of
the first: the keys of the registry after two calls are those after one. -/
theorem addStubTwice_nil_body (s : Server) (stub : Stub)
    (hv : stub.Request.Sanitize.Validate.len = 0 ∧ stub.Response.Validate.len = 0)
    (hb : stub.Request.Body = Value.null) :
    ∃ r1 r2, addStub s (some stub) = Run.ret r1 ∧ addStubTwice s stub = Run.ret r2
      ∧ getHash r2.stub.Request = getHash r1.stub.Request
      ∧ r2.server.stubs.keys = r1.server.stubs.keys
      ∧ r2.server.stubs.len = r1.server.stubs.len := by
  have hc : compactStubBody stub.Request.Body = .ok Value.null := by rw [hb]; rfl
  have a1 := addStub_of_valid s stub Value.null hv hc
  have hsame : ({ stub.Request.Sanitize with Body := Value.null } : StubRequest)
      = stub.Request.Sanitize := by
    have := (sanitize_fields stub.Request).2.2
    rw [hb] at this
    cases hs : stub.Request.Sanitize with
    | mk m p q bd => rw [hs] at this; simp only at this; rw [this]
  rw [hsame] at a1
  have hv2 : (stub.Request.Sanitize).Sanitize.Validate.len = 0 ∧ stub.Response.Validate.len = 0 := by
    rw [sanitize_idem]; exact hv
  have hc2 : compactStubBody stub.Request.Sanitize.Body = .ok Value.null := by
    rw [(sanitize_fields stub.Request).2.2]; exact hc
  have a2 := addStub_of_valid
    { s with stubs := (s.stubs.set (getHash stub.Request.Sanitize)
        (Stub.mk stub.Request.Sanitize stub.Response)) }
    (Stub.mk stub.Request.Sanitize stub.Response) Value.null hv2 hc2
  have hsame2 : ({ stub.Request.Sanitize.Sanitize with Body := Value.null } : StubRequest)
      = stub.Request.Sanitize := by
    rw [sanitize_idem]; exact hsame
  simp only [hsame2] at a2
  have ht : addStubTwice s stub = addStub
      { s with stubs := (s.stubs.set (getHash stub.Request.Sanitize)
          (Stub.mk stub.Request.Sanitize stub.Response)) }
      (some (Stub.mk stub.Request.Sanitize stub.Response)) := by
    unfold addStubTwice
    rw [a1]
  rw [a2] at ht
  refine ⟨_, _, a1, ht, rfl, ?_, ?_⟩
  · exact keys_set_set _ _ _ _
  · show stubHashMap.len (stubHashMap.set (stubHashMap.set _ _ _) _ _) = _
    rw [len_set, if_pos (mem_keys_set_self _ _ _)]

/-- C14 at the stub of examples/main.go, whose request body is a JSON text in a string: the
first addStub stores it under the fingerprint of the text with the body quoted once; the
second addStub, on the stub as the first left it, quotes the body again and stores it under
another fingerprint: two keys after two calls, one key after one. -/
theorem C14_second_add_other_fingerprint :
    (addStub NewServer (some stubExample)).toOption.map
        (fun a => (a.errs, a.server.stubs.len, a.stub.Request.fmtV))
      = some (some [], 1,
          "\x7bGET /test map[id:[1]] \"\x7b\\\"from\\\":\\\"json\\\"\x7d\"\x7d")
    ∧ (addStubTwice NewServer stubExample).toOption.map
        (fun a => (a.errs, a.server.stubs.len, a.stub.Request.fmtV))
      = some (some [], 2,
          "\x7bGET /test map[id:[1]] \"\\\"\x7b\\\\\\\"from\\\\\\\":\\\\\\\"json\\\\\\\"\x7d\\\"\"\x7d")
    ∧ (addStubTwice NewServer stubExample).toOption.map (fun a => a.server.stubs.keys)
      ≠ (addStub NewServer (some stubExample)).toOption.map (fun a => a.server.stubs.keys)
    ∧ (addStubTwice NewServer stubExample).toOption.map (fun a => getHash a.stub.Request)
      ≠ (addStub NewServer (some stubExample)).toOption.map (fun a => getHash a.stub.Request) := by
  decide!

end Gmock
